import Mathlib

/-!
Verification of the caddyproxymanager configuration-synthesis core.

The Go sources under `backend/pkg` are shallowly embedded: pure functions
become Lean functions, the Caddy JSON tree becomes a family of structures,
Go maps become association lists, and the network transport becomes explicit
parameters (the fetched configuration, the outcome of the POST) plus an
event trace recording which external effects an operation performed.
-/

namespace CPM

/-! ## Go string primitives

Go strings are modelled as Lean `String`, with the `strings` package
helpers re-implemented over `String.data` so that proofs can proceed by
list induction.
-/

/-- The characters of `s` split on every occurrence of `c`
(model of Go `strings.Split(s, c)` for a one-character separator). -/
def splitOnChar (c : Char) : List Char → List (List Char)
  | [] => [[]]
  | x :: xs =>
    if x = c then [] :: splitOnChar c xs
    else
      match splitOnChar c xs with
      | [] => [[x]]
      | h :: t => (x :: h) :: t

/-- Interleave the separator `c` between the chunks
(model of Go `strings.Join` with a one-character separator). -/
def joinSep (c : Char) : List (List Char) → List Char
  | [] => []
  | [x] => x
  | x :: xs => x ++ c :: joinSep c xs

/-- Split at the first occurrence of the pattern `pat`, returning the
part before and the part after it. -/
def splitFirstSub (pat : List Char) : List Char → Option (List Char × List Char)
  | [] => if pat = [] then some ([], []) else none
  | x :: xs =>
    if pat.isPrefixOf (x :: xs) then some ([], (x :: xs).drop pat.length)
    else
      match splitFirstSub pat xs with
      | some (a, b) => some (x :: a, b)
      | none => none

/-- Split at the last occurrence of `':'`:
returns the part before and the part after it. -/
def splitAtLastColon : List Char → Option (List Char × List Char)
  | [] => none
  | x :: xs =>
    match splitAtLastColon xs with
    | some (h, p) => some (x :: h, p)
    | none => if x = ':' then some ([], xs) else none

/-- Model of Go `strings.Contains(s, string(c))` for a single character. -/
def strContainsChar (s : String) (c : Char) : Bool := s.data.contains c

/-- Model of Go `strings.Contains(s, pat)` for a multi-character pattern. -/
def strContainsSub (s pat : String) : Bool := (splitFirstSub pat.data s.data).isSome

/-- Model of Go `strings.HasPrefix(s, p)`. -/
def strHasPrefix (p s : String) : Bool := p.data.isPrefixOf s.data

/-- Model of Go `strings.HasSuffix(s, suf)`. -/
def strHasSuffix (suf s : String) : Bool := suf.data.isSuffixOf s.data

/-- Model of Go `strings.TrimSuffix(s, suf)`. -/
def strTrimSuffix (s suf : String) : String :=
  if strHasSuffix suf s then ⟨s.data.take (s.data.length - suf.data.length)⟩ else s

/-- Model of Go `strings.Split(s, string(c))`. -/
def strSplitOn (s : String) (c : Char) : List String :=
  (splitOnChar c s.data).map (fun l => ⟨l⟩)

/-- Model of Go `strings.Join(xs, string(c))`. -/
def strJoin (c : Char) (xs : List String) : String :=
  ⟨joinSep c (xs.map String.data)⟩

/-- Model of Go `strings.ReplaceAll(s, string(a), string(b))` for
one-character old/new strings. -/
def strReplaceAll (s : String) (a b : Char) : String :=
  ⟨s.data.map (fun ch => if ch = a then b else ch)⟩

/-- Model of Go `strings.TrimSpace`. -/
def strTrimSpace (s : String) : String :=
  ⟨((s.data.dropWhile Char.isWhitespace).reverse.dropWhile Char.isWhitespace).reverse⟩

/-! ### Lemmas about the string primitives -/

theorem splitOnChar_ne_nil (c : Char) (l : List Char) : splitOnChar c l ≠ [] := by
  induction l with
  | nil => simp [splitOnChar]
  | cons x xs ih =>
    simp only [splitOnChar]
    split
    · simp
    · cases h : splitOnChar c xs with
      | nil => simp
      | cons a t => simp

theorem splitOnChar_of_not_mem (c : Char) (l : List Char) (h : c ∉ l) :
    splitOnChar c l = [l] := by
  induction l with
  | nil => rfl
  | cons x xs ih =>
    simp only [List.mem_cons, not_or] at h
    simp only [splitOnChar]
    rw [if_neg (fun hx => h.1 hx.symm)]
    rw [ih h.2]

theorem splitOnChar_append_sep (c : Char) (l₁ l₂ : List Char) (h : c ∉ l₁) :
    splitOnChar c (l₁ ++ c :: l₂) = l₁ :: splitOnChar c l₂ := by
  induction l₁ with
  | nil => simp [splitOnChar]
  | cons x xs ih =>
    simp only [List.mem_cons, not_or] at h
    simp only [List.cons_append, splitOnChar]
    rw [if_neg (fun hx => h.1 hx.symm)]
    show (match splitOnChar c (xs ++ c :: l₂) with
          | [] => [[x]]
          | h :: t => (x :: h) :: t) = (x :: xs) :: splitOnChar c l₂
    rw [ih h.2]

theorem strTrimSuffix_append (a b : String) :
    strTrimSuffix ⟨a.data ++ b.data⟩ b = a := by
  have hsuf : strHasSuffix b ⟨a.data ++ b.data⟩ = true := by
    simp only [strHasSuffix]
    rw [List.isSuffixOf_iff_suffix]
    exact List.suffix_append a.data b.data
  simp only [strTrimSuffix, hsuf, if_pos]
  congr 1
  simp only [List.length_append, Nat.add_sub_cancel]
  exact List.take_left a.data b.data

/-! ## Models of the Go standard-library functions used by the client

`net.ParseIP`, `net.ParseCIDR`, `net.SplitHostPort` and the parts of
`net/url.Parse` that `parseTargetURL` consults are external library code;
they are modelled here after Go's documented behaviour.  Only validity
(not the parsed value) is needed by the client code.
-/

/-- Decimal value of a digit list (most significant first). -/
def natOfDigits (l : List Char) : Nat :=
  l.foldl (fun acc c => acc * 10 + (c.toNat - '0'.toNat)) 0

/-- An IPv4 dotted-quad field: 1-3 digits, value at most 255, no leading
zero (Go rejects leading zeros in `ParseIP` since 1.17). -/
def validV4Field (f : List Char) : Bool :=
  f ≠ [] && f.length ≤ 3 && f.all Char.isDigit &&
    (f.head? ≠ some '0' || f.length = 1) && natOfDigits f ≤ 255

/-- Model of Go `net.ParseIP` restricted to IPv4 dotted-quad form,
returning only validity. -/
def parseIPv4Bool (s : List Char) : Bool :=
  let parts := splitOnChar '.' s
  parts.length = 4 && parts.all validV4Field

/-- A hexadecimal IPv6 group: 1-4 hex digits. -/
def validV6Group (g : List Char) : Bool :=
  g ≠ [] && g.length ≤ 4 &&
    g.all (fun c => c.isDigit || ('a' ≤ c && c ≤ 'f') || ('A' ≤ c && c ≤ 'F'))

/-- Count the 16-bit groups of a colon-separated list; an embedded IPv4
address (allowed only in the final position) counts as two groups. -/
def v6GroupCount (allowV4End : Bool) : List (List Char) → Option Nat
  | [] => some 0
  | [g] =>
    if validV6Group g then some 1
    else if allowV4End && parseIPv4Bool g then some 2
    else none
  | g :: rest =>
    if validV6Group g then (v6GroupCount allowV4End rest).map (· + 1)
    else none

/-- Model of Go `net.ParseIP` restricted to IPv6 textual form, returning
only validity: either eight groups, or a single `::` compression. -/
def parseIPv6Bool (s : List Char) : Bool :=
  match splitFirstSub [':', ':'] s with
  | some (l, r) =>
    (splitFirstSub [':', ':'] r).isNone &&
      (match (if l.isEmpty then some 0 else v6GroupCount false (splitOnChar ':' l)),
             (if r.isEmpty then some 0 else v6GroupCount true (splitOnChar ':' r)) with
       | some a, some b => a + b ≤ 7
       | _, _ => false)
  | none => v6GroupCount true (splitOnChar ':' s) = some 8

/-- Model of Go `net.ParseIP` returning only validity.  Go dispatches on
whichever of `'.'` and `':'` occurs first. -/
def parseIPBool (s : String) : Bool :=
  match s.data.find? (fun c => c = '.' || c = ':') with
  | some c => if c = '.' then parseIPv4Bool s.data else parseIPv6Bool s.data
  | none => false

/-- Model of Go `net.ParseCIDR` returning only validity: an IP address,
a `/`, and a decimal prefix length bounded by the address width. -/
def parseCIDRBool (s : String) : Bool :=
  match splitFirstSub ['/'] s.data with
  | some (addr, mask) =>
    mask ≠ [] && mask.all Char.isDigit && mask.length ≤ 3 &&
      (if parseIPv4Bool addr then natOfDigits mask ≤ 32
       else parseIPv6Bool addr && natOfDigits mask ≤ 128)
  | none => false

/-- Model of Go `net.SplitHostPort`: split at the last colon; the host
part must not itself contain a colon unless it is bracketed. -/
def splitHostPort (s : String) : Option (String × String) :=
  match splitAtLastColon s.data with
  | none => none
  | some (h, p) =>
    if h.contains ':' then
      match h with
      | '[' :: rest =>
        if rest.getLast? = some ']' then some (⟨rest.dropLast⟩, ⟨p⟩) else none
      | _ => none
    else some (⟨h⟩, ⟨p⟩)

/-- The hostname and port of a URL authority, as computed by Go's
`url.URL.Hostname`/`url.URL.Port`: the part after the last colon is the
port when it consists solely of digits; brackets around an IPv6 host are
stripped. -/
def hostnameAndPort (authority : List Char) : List Char × List Char :=
  let (h, p) :=
    match splitAtLastColon authority with
    | some (h, p) => if p.all Char.isDigit then (h, p) else (authority, [])
    | none => (authority, [])
  match h with
  | '[' :: rest => if rest.getLast? = some ']' then (rest.dropLast, p) else (h, p)
  | _ => (h, p)

/-- Model of the slice of `net/url.Parse` that `parseTargetURL` uses:
the scheme before the first `"://"` and the authority that follows it,
up to the first `/`, `?` or `#`. -/
def goURLParse (s : String) : Option (String × String × String) :=
  match splitFirstSub [':', '/', '/'] s.data with
  | none => none
  | some (scheme, rest) =>
    let authority := rest.takeWhile (fun c => c ≠ '/' && c ≠ '?' && c ≠ '#')
    let (h, p) := hostnameAndPort authority
    some (⟨scheme⟩, ⟨h⟩, ⟨p⟩)

/-! ## Data model (`pkg/models`)

Go maps become association lists (`List (String × _)`); `nil` pointers
become `Option`.  Field names follow the Go structs.
-/

/-- `models.BasicAuth`. -/
structure BasicAuth where
  enabled : Bool
  username : String
  password : String
  deriving DecidableEq, Repr

/-- `models.Proxy`. -/
structure Proxy where
  id : String
  domain : String
  targetURL : String
  sslMode : String
  challengeType : String
  dnsProvider : String
  dnsCredentials : List (String × String)
  customHeaders : List (String × String)
  basicAuth : Option BasicAuth
  status : String
  healthCheckEnabled : Bool
  healthCheckInterval : String
  healthCheckPath : String
  healthCheckExpectedStatus : Nat
  allowedIPs : List String
  blockedIPs : List String
  createdAt : String
  updatedAt : String
  deriving DecidableEq, Repr

/-- `models.Redirect`. -/
structure Redirect where
  id : String
  sourceDomains : List String
  destinationURL : String
  redirectCode : Nat
  preservePath : Bool
  status : String
  createdAt : String
  updatedAt : String
  deriving DecidableEq, Repr

/-- `models.GenerateProxyID`; the formatted Unix timestamp is passed as a
parameter instead of reading the clock. -/
def generateProxyID (domain ts : String) : String :=
  "proxy_" ++ strReplaceAll domain '.' '_' ++ "_" ++ ts

/-- `models.(*Redirect).Validate`. -/
def redirectValidate (r : Redirect) : Except String Unit :=
  if r.sourceDomains = [] then .error "at least one source domain is required"
  else if r.destinationURL = "" then .error "destination URL is required"
  else if r.redirectCode ≠ 301 ∧ r.redirectCode ≠ 302 then
    .error "redirect code must be 301 or 302"
  else if ¬ (strHasPrefix "http://" r.destinationURL ∨
             strHasPrefix "https://" r.destinationURL) then
    .error "destination URL must start with http:// or https://"
  else .ok ()

/-- `models.ProxyMetadata`. -/
structure ProxyMetadata where
  id : String
  healthCheckEnabled : Bool
  healthCheckInterval : String
  healthCheckPath : String
  healthCheckExpectedStatus : Nat
  challengeType : String
  dnsProvider : String
  dnsCredentials : List (String × String)
  customHeaders : List (String × String)
  basicAuth : Option BasicAuth
  createdAt : String
  updatedAt : String
  deriving DecidableEq, Repr

/-- `models.MetadataStore`: a map from proxy ID to overlay entry. -/
structure MetadataStore where
  data : List (String × ProxyMetadata)
  deriving DecidableEq, Repr

/-- Go map assignment `m[k] = v`: replace the entry if the key exists,
otherwise add it. -/
def assocSet {α : Type} (k : String) (v : α) (l : List (String × α)) : List (String × α) :=
  if l.any (fun e => e.1 = k) then
    l.map (fun e => if e.1 = k then (k, v) else e)
  else l ++ [(k, v)]

/-- The overlay entry `MetadataStore.Set` builds from a proxy. -/
def metadataOfProxy (p : Proxy) : ProxyMetadata :=
  { id := p.id
    healthCheckEnabled := p.healthCheckEnabled
    healthCheckInterval := p.healthCheckInterval
    healthCheckPath := p.healthCheckPath
    healthCheckExpectedStatus := p.healthCheckExpectedStatus
    challengeType := p.challengeType
    dnsProvider := p.dnsProvider
    dnsCredentials := p.dnsCredentials
    customHeaders := p.customHeaders
    basicAuth := p.basicAuth
    createdAt := p.createdAt
    updatedAt := p.updatedAt }

/-- `models.(*MetadataStore).Set`. -/
def MetadataStore.set (ms : MetadataStore) (p : Proxy) : MetadataStore :=
  ⟨assocSet p.id (metadataOfProxy p) ms.data⟩

/-- `models.(*MetadataStore).Get`. -/
def MetadataStore.get (ms : MetadataStore) (proxyID : String) : Option ProxyMetadata :=
  List.lookup proxyID ms.data

/-- `models.(*MetadataStore).Delete` (Go `delete(ms.Data, proxyID)`). -/
def MetadataStore.delete (ms : MetadataStore) (proxyID : String) : MetadataStore :=
  ⟨ms.data.filter (fun e => e.1 ≠ proxyID)⟩

/-- `models.(*MetadataStore).ApplyToProxy`. -/
def MetadataStore.applyToProxy (ms : MetadataStore) (p : Proxy) : Proxy :=
  match List.lookup p.id ms.data with
  | none => p
  | some m =>
    { p with
      healthCheckEnabled := m.healthCheckEnabled
      healthCheckInterval := m.healthCheckInterval
      healthCheckPath := m.healthCheckPath
      healthCheckExpectedStatus := m.healthCheckExpectedStatus
      challengeType := m.challengeType
      dnsProvider := m.dnsProvider
      dnsCredentials := m.dnsCredentials
      customHeaders := m.customHeaders
      basicAuth := m.basicAuth
      createdAt := m.createdAt
      updatedAt := m.updatedAt }

/-- The empty metadata store (`models.NewMetadataStore`). -/
def emptyMeta : MetadataStore := ⟨[]⟩

/-! ## Caddy configuration tree (`pkg/models/caddy.go`)

The struct fields follow their declarations and their uses in
`pkg/caddy/client.go` (`RemoteIP`, `Not`, `StatusCode` and `Response` are
declared in the models package and exercised by the client).
-/

/-- `models.CaddyRemoteIPMatch`. -/
structure CaddyRemoteIPMatch where
  ranges : List String
  deriving DecidableEq, Repr

/-- `models.CaddyMatch`: host matcher, optional remote-IP matcher, and an
optional negated sub-matcher (`Not *CaddyMatch`). -/
inductive CaddyMatch where
  | mk (host : List String) (remoteIP : Option CaddyRemoteIPMatch)
       (notMatch : Option CaddyMatch)
  deriving Repr

/-- The host list of a matcher. -/
def CaddyMatch.host : CaddyMatch → List String
  | .mk h _ _ => h

/-- The remote-IP part of a matcher. -/
def CaddyMatch.remoteIP : CaddyMatch → Option CaddyRemoteIPMatch
  | .mk _ r _ => r

/-- The negated sub-matcher. -/
def CaddyMatch.notMatch : CaddyMatch → Option CaddyMatch
  | .mk _ _ n => n

/-- `models.CaddyUpstream`. -/
structure CaddyUpstream where
  dial : String
  deriving DecidableEq, Repr

/-- `models.CaddyTransport` (`TLS *struct{}` becomes a flag). -/
structure CaddyTransport where
  protocol : String
  tls : Bool
  deriving DecidableEq, Repr

/-- `models.CaddyHeadersRequest`. -/
structure CaddyHeadersRequest where
  set : List (String × List String)
  deriving DecidableEq, Repr

/-- `models.CaddyHeaders`. -/
structure CaddyHeaders where
  request : Option CaddyHeadersRequest
  deriving DecidableEq, Repr

/-- `models.CaddyHeadersResponse` (the `Response` field of the `headers`
handler used for redirects). -/
structure CaddyHeadersResponse where
  set : List (String × List String)
  deriving DecidableEq, Repr

/-- `models.CaddyAccount`. -/
structure CaddyAccount where
  username : String
  password : String
  deriving DecidableEq, Repr

/-- `models.CaddyAuthProvider`. -/
structure CaddyAuthProvider where
  accounts : List CaddyAccount
  deriving DecidableEq, Repr

/-- `models.CaddyHandler`: one struct with optional fields covering every
handler kind the manager emits. -/
structure CaddyHandler where
  handler : String
  upstreams : List CaddyUpstream := []
  transport : Option CaddyTransport := none
  headers : Option CaddyHeaders := none
  providers : List (String × CaddyAuthProvider) := []
  response : Option CaddyHeadersResponse := none
  statusCode : Nat := 0
  deriving DecidableEq, Repr

/-- `models.CaddyRoute`. -/
structure CaddyRoute where
  id : String
  matchers : List CaddyMatch
  handle : List CaddyHandler
  deriving Repr

/-- `models.CaddyDNSProvider`. -/
structure CaddyDNSProvider where
  name : String
  apiToken : String := ""
  authToken : String := ""
  token : String := ""
  bearerToken : String := ""
  apiAccessToken : String := ""
  email : String := ""
  deriving DecidableEq, Repr

/-- `models.CaddyDNSChallenge`. -/
structure CaddyDNSChallenge where
  provider : CaddyDNSProvider
  deriving DecidableEq, Repr

/-- `models.CaddyChallenges`. -/
structure CaddyChallenges where
  dns : Option CaddyDNSChallenge
  deriving DecidableEq, Repr

/-- `models.CaddyIssuer`. -/
structure CaddyIssuer where
  module : String
  challenges : CaddyChallenges
  deriving DecidableEq, Repr

/-- `models.CaddyTLSMatch`. -/
structure CaddyTLSMatch where
  sni : List String
  deriving DecidableEq, Repr

/-- `models.CaddyTLSPolicy`. -/
structure CaddyTLSPolicy where
  tlsMatch : Option CaddyTLSMatch
  issuers : List CaddyIssuer
  deriving DecidableEq, Repr

/-- `models.CaddyCA`. -/
structure CaddyCA where
  module : String
  challenges : CaddyChallenges
  deriving DecidableEq, Repr

/-- `models.CaddyTLS` (`CertificateAuthorities` map, `nil` when absent). -/
structure CaddyTLS where
  certificateAuthorities : Option (List (String × CaddyCA))
  deriving DecidableEq, Repr

/-- `models.CaddyAutomaticHTTPS`. -/
structure CaddyAutomaticHTTPS where
  disable : Bool
  deriving DecidableEq, Repr

/-- `models.CaddyServer`. -/
structure CaddyServer where
  listen : List String
  routes : List CaddyRoute
  automaticHTTPS : Option CaddyAutomaticHTTPS := none
  tlsPolicies : List CaddyTLSPolicy := []
  deriving Repr

/-- `models.CaddyHTTP` (`Servers` is a map possibly `nil`). -/
structure CaddyHTTP where
  servers : Option (List (String × CaddyServer))
  deriving Repr

/-- `models.CaddyApps`. -/
structure CaddyApps where
  http : CaddyHTTP
  tls : Option CaddyTLS := none
  deriving Repr

/-- `models.CaddyConfig`. -/
structure CaddyConfig where
  apps : CaddyApps
  deriving Repr

/-- The fresh configuration built when the current tree cannot be
fetched or has no servers. -/
def freshConfig : CaddyConfig :=
  { apps := { http := { servers := some [] }, tls := none } }

/-! ## The Caddy client (`pkg/caddy/client.go`)

The environment (`os.Getenv`) and the bcrypt hash (which draws a random
salt) are passed in as function parameters `env` and `bhash`.
-/

/-- `caddy.validateIPOrCIDR`. -/
def validateIPOrCIDR (ipOrCIDR : String) : Except String Unit :=
  if parseIPBool ipOrCIDR then .ok ()
  else if parseCIDRBool ipOrCIDR then .ok ()
  else .error ("invalid IP address or CIDR range: " ++ ipOrCIDR)

/-- `caddy.validateIPList`. -/
def validateIPList : List String → Except String Unit
  | [] => .ok ()
  | ip :: rest =>
    let t := strTrimSpace ip
    if t ≠ "" then
      match validateIPOrCIDR t with
      | .error e => .error e
      | .ok _ => validateIPList rest
    else validateIPList rest

/-- `caddy.getCredential`: the proxy-supplied value when non-empty,
otherwise the provider-specific environment variable. -/
def getCredential (env : String → String) (proxy : Proxy) (key envVar : String) : String :=
  match List.lookup key proxy.dnsCredentials with
  | some v => if v ≠ "" then v else env envVar
  | none => env envVar

/-- `caddy.dnsConfigurators` / `caddy.configureDNSProviderCredentials`:
per-provider credential population. -/
def configureDNSProviderCredentials (env : String → String) (dp : CaddyDNSProvider)
    (proxy : Proxy) : CaddyDNSProvider :=
  if proxy.dnsProvider = "cloudflare" then
    { dp with apiToken := getCredential env proxy "api_token" "CLOUDFLARE_API_TOKEN"
              email := getCredential env proxy "email" "CLOUDFLARE_EMAIL" }
  else if proxy.dnsProvider = "digitalocean" then
    { dp with authToken := getCredential env proxy "auth_token" "DO_AUTH_TOKEN" }
  else if proxy.dnsProvider = "duckdns" then
    { dp with token := getCredential env proxy "token" "DUCKDNS_TOKEN" }
  else if proxy.dnsProvider = "hetzner" then
    { dp with apiToken := getCredential env proxy "api_token" "HETZNER_API_TOKEN" }
  else if proxy.dnsProvider = "gandi" then
    { dp with bearerToken := getCredential env proxy "bearer_token" "GANDI_BEARER_TOKEN" }
  else if proxy.dnsProvider = "dnsimple" then
    { dp with apiAccessToken := getCredential env proxy "api_access_token" "DNSIMPLE_API_ACCESS_TOKEN" }
  else dp

/-- `caddy.(*Client).createDNSChallengeTLSPolicy`. -/
def createDNSChallengeTLSPolicy (env : String → String) (proxy : Proxy) :
    Option CaddyTLSPolicy :=
  if proxy.challengeType ≠ "dns" ∨ proxy.dnsProvider = "" then none
  else
    let dnsProvider :=
      configureDNSProviderCredentials env
        { name := "dns.providers." ++ proxy.dnsProvider } proxy
    some
      { tlsMatch := some { sni := [proxy.domain] }
        issuers := [{ module := "acme"
                      challenges := { dns := some { provider := dnsProvider } } }] }

/-- `caddy.(*Client).configureDNSChallenge`: set the global default ACME
certificate authority to use the proxy's DNS provider. -/
def configureDNSChallenge (env : String → String) (config : CaddyConfig)
    (proxy : Proxy) : CaddyConfig :=
  if proxy.challengeType ≠ "dns" ∨ proxy.dnsProvider = "" then config
  else
    let tls0 := config.apps.tls.getD { certificateAuthorities := none }
    let cas := tls0.certificateAuthorities.getD []
    let dnsProvider :=
      configureDNSProviderCredentials env
        { name := "dns.providers." ++ proxy.dnsProvider } proxy
    let acmeCA : CaddyCA :=
      { module := "acme"
        challenges := { dns := some { provider := dnsProvider } } }
    { config with
      apps := { config.apps with
                tls := some { certificateAuthorities := some (assocSet "acme" acmeCA cas) } } }

/-- `caddy.parseTargetURL`: dial address (host plus defaulted port),
whether the upstream needs TLS, and the bare hostname. -/
def parseTargetURL (targetURL : String) : Except String (String × Bool × String) :=
  let t := if strContainsSub targetURL "://" then targetURL
           else "http://" ++ targetURL
  match goURLParse t with
  | none => .error "failed to parse URL"
  | some (scheme, host, port) =>
    let useHTTPS := strHasPrefix "https://" targetURL
    let port' :=
      if port = "" then
        if scheme = "https" then "443" else "80"
      else port
    .ok (host ++ ":" ++ port', useHTTPS, host)

/-- The basic-auth handler embedded by `buildProxyRoute` when basic auth
is active; the password field holds the bcrypt hash. -/
def basicAuthHandler (bhash : String → String) (ba : BasicAuth) : CaddyHandler :=
  { handler := "authentication"
    providers := [("http_basic",
      { accounts := [{ username := ba.username, password := bhash ba.password }] })] }

/-- `caddy.(*Client).buildReverseProxyHandler`. -/
def buildReverseProxyHandler (proxy : Proxy) : Except String CaddyHandler :=
  match parseTargetURL proxy.targetURL with
  | .error e => .error ("invalid target URL: " ++ e)
  | .ok (dialAddr, useHTTPS, targetHost) =>
    let baseSet : List (String × List String) := [("Host", [targetHost])]
    let setWithCustom :=
      proxy.customHeaders.foldl (fun acc kv => assocSet kv.1 [kv.2] acc) baseSet
    .ok { handler := "reverse_proxy"
          upstreams := [{ dial := dialAddr }]
          headers := some { request := some { set := setWithCustom } }
          transport := if useHTTPS then some { protocol := "http", tls := true } else none }

/-- `caddy.(*Client).buildRouteMatchers`: host matcher (only for
port-free domains) plus allow-list / block-list remote-IP matching. -/
def buildRouteMatchers (proxy : Proxy) : List CaddyMatch :=
  let baseHost : List String :=
    if ¬ strContainsChar proxy.domain ':' then [proxy.domain] else []
  let allowedIPs := (proxy.allowedIPs.map strTrimSpace).filter (fun ip => ip ≠ "")
  let blockedIPs := (proxy.blockedIPs.map strTrimSpace).filter (fun ip => ip ≠ "")
  let routeMatches : List CaddyMatch :=
    if proxy.allowedIPs ≠ [] then
      if allowedIPs ≠ [] then [.mk baseHost (some ⟨allowedIPs⟩) none] else []
    else if proxy.blockedIPs ≠ [] then
      if blockedIPs ≠ [] then [.mk baseHost none (some (.mk [] (some ⟨blockedIPs⟩) none))] else []
    else []
  if routeMatches.isEmpty ∧ baseHost ≠ [] then [.mk baseHost none none] else routeMatches

/-- Whether basic auth is active for a proxy (the guard in
`buildProxyRoute`). -/
def basicAuthActive (proxy : Proxy) : Bool :=
  match proxy.basicAuth with
  | some ba => ba.enabled && ba.username ≠ "" && ba.password ≠ ""
  | none => false

/-- `caddy.(*Client).buildProxyRoute`. -/
def buildProxyRoute (bhash : String → String) (proxy : Proxy) :
    Except String CaddyRoute :=
  let authHandlers : List CaddyHandler :=
    match proxy.basicAuth with
    | some ba =>
      if ba.enabled && ba.username ≠ "" && ba.password ≠ "" then
        [basicAuthHandler bhash ba]
      else []
    | none => []
  match buildReverseProxyHandler proxy with
  | .error e => .error e
  | .ok rp =>
    .ok { id := proxy.id
          matchers := buildRouteMatchers proxy
          handle := authHandlers ++ [rp] }

/-- `caddy.(*Client).buildRedirectRoute`. -/
def buildRedirectRoute (redirect : Redirect) : CaddyRoute :=
  let destinationURL :=
    if redirect.preservePath then
      redirect.destinationURL ++ "\x7bhttp.request.uri\x7d"
    else redirect.destinationURL
  let headersHandler : CaddyHandler :=
    { handler := "headers"
      response := some { set := [("Location", [destinationURL])] } }
  let responseHandler : CaddyHandler :=
    { handler := "static_response", statusCode := redirect.redirectCode }
  let hostMatchers : List CaddyMatch :=
    redirect.sourceDomains.filterMap (fun domain =>
      if ¬ strContainsChar domain ':' then some (.mk [domain] none none) else none)
  let matchers := if hostMatchers.isEmpty then [CaddyMatch.mk [] none none] else hostMatchers
  { id := redirect.id
    handle := [headersHandler, responseHandler]
    matchers := matchers }

/-! ## Transport embedding

The admin API is modelled by passing each operation the outcome of its
`GetConfig` call (`getRes`) and of its configuration POST (`postErr`,
`none` meaning HTTP 200).  Each operation reports the error it returns,
the tree it successfully pushed (if any), the resulting metadata store,
and a trace of the external effects it performed, in order.
-/

/-- An externally visible effect of a client operation. -/
inductive Event where
  | fetch
  | saveMeta
  | write
  deriving DecidableEq, Repr

/-- The observable outcome of a mutating client operation. -/
structure OpOutcome where
  res : Except String Unit
  pushed : Option CaddyConfig
  meta : MetadataStore
  events : List Event

/-- `caddy.(*Client).GetConfig`: a network failure is returned as-is, a
non-200 status becomes a formatted error, otherwise the decoded tree. -/
def getConfigModel (netErr : Option String) (status : Nat) (body : CaddyConfig) :
    Except String CaddyConfig :=
  match netErr with
  | some e => .error e
  | none =>
    if status ≠ 200 then .error ("caddy API returned status " ++ toString status)
    else .ok body

/-- Append the ports of `ports` that are not yet in `listen`
(the `slices.Contains` loop in `AddProxy`/`AddRedirect`). -/
def mergeListen (listen ports : List String) : List String :=
  ports.foldl (fun acc port => if acc.contains port then acc else acc ++ [port]) listen

/-- Replace the servers map of a configuration. -/
def setServers (config : CaddyConfig) (servers : List (String × CaddyServer)) :
    CaddyConfig :=
  { config with apps := { config.apps with http := { servers := some servers } } }

/-- The server-bucket name chosen by `AddProxy` for a proxy
(lines 402-411 of `client.go`). -/
def serverNameOf (proxy : Proxy) : String :=
  if proxy.sslMode = "none" then "http_only" else "https_enabled"

/-- The listen ports `AddProxy` wants for a proxy: the base ports of the
bucket plus any port embedded in the domain (lines 402-415). -/
def listenPortsOf (proxy : Proxy) : List String :=
  let basePorts : List String :=
    if proxy.sslMode = "none" then [":80"] else [":80", ":443"]
  match splitHostPort proxy.domain with
  | some hp => basePorts ++ [":" ++ hp.2]
  | none => basePorts

/-- Whether `AddProxy` engages the DNS-challenge configurator. -/
def wantsDNSChallenge (proxy : Proxy) : Prop :=
  proxy.sslMode = "auto" ∧ proxy.challengeType = "dns"

instance (proxy : Proxy) : Decidable (wantsDNSChallenge proxy) := by
  unfold wantsDNSChallenge; infer_instance

/-- The bucket-allocation step of `AddProxy` (lines 417-460): append the
route to the chosen bucket, union the listen ports, and append any DNS
TLS policy; create the bucket if absent, disabling automatic HTTPS for
the HTTP-only bucket. -/
def addRouteToServers (env : String → String) (proxy : Proxy) (newRoute : CaddyRoute)
    (servers : List (String × CaddyServer)) : List (String × CaddyServer) :=
  let serverName := serverNameOf proxy
  let listenPorts := listenPortsOf proxy
  match List.lookup serverName servers with
  | some server =>
    let server1 : CaddyServer :=
      { server with
        routes := server.routes ++ [newRoute]
        listen := mergeListen server.listen listenPorts }
    let server2 :=
      if wantsDNSChallenge proxy then
        match createDNSChallengeTLSPolicy env proxy with
        | some pol => { server1 with tlsPolicies := server1.tlsPolicies ++ [pol] }
        | none => server1
      else server1
    assocSet serverName server2 servers
  | none =>
    let newServer : CaddyServer :=
      { listen := listenPorts
        routes := [newRoute]
        automaticHTTPS :=
          if proxy.sslMode = "none" then some { disable := true } else none
        tlsPolicies :=
          if wantsDNSChallenge proxy then
            match createDNSChallengeTLSPolicy env proxy with
            | some pol => [pol]
            | none => []
          else [] }
    assocSet serverName newServer servers

/-- `caddy.(*Client).AddProxy`. -/
def addProxy (env bhash : String → String) (proxy : Proxy)
    (getRes : Except String CaddyConfig) (postErr : Option String)
    (meta : MetadataStore) : OpOutcome :=
  match validateIPList proxy.allowedIPs with
  | .error e => ⟨.error ("invalid allowed IPs: " ++ e), none, meta, []⟩
  | .ok _ =>
  match validateIPList proxy.blockedIPs with
  | .error e => ⟨.error ("invalid blocked IPs: " ++ e), none, meta, []⟩
  | .ok _ =>
  match buildProxyRoute bhash proxy with
  | .error e => ⟨.error ("failed to build proxy route: " ++ e), none, meta, []⟩
  | .ok newRoute =>
    let config : CaddyConfig :=
      match getRes with
      | .ok c => if c.apps.http.servers.isNone then freshConfig else c
      | .error _ => freshConfig
    let servers := config.apps.http.servers.getD []
    let config1 := setServers config (addRouteToServers env proxy newRoute servers)
    let config2 :=
      if wantsDNSChallenge proxy then configureDNSChallenge env config1 proxy
      else config1
    let meta1 := meta.set proxy
    match postErr with
    | some e =>
      ⟨.error ("failed to update config: " ++ e), none, meta1,
        [.fetch, .saveMeta, .write]⟩
    | none => ⟨.ok (), some config2, meta1, [.fetch, .saveMeta, .write]⟩

/-- `caddy.(*Client).AddRedirect`. -/
def addRedirect (redirect : Redirect) (getRes : Except String CaddyConfig)
    (postErr : Option String) (meta : MetadataStore) : OpOutcome :=
  match redirectValidate redirect with
  | .error e => ⟨.error ("invalid redirect: " ++ e), none, meta, []⟩
  | .ok _ =>
    let newRoute := buildRedirectRoute redirect
    let config : CaddyConfig :=
      match getRes with
      | .ok c => if c.apps.http.servers.isNone then freshConfig else c
      | .error _ => freshConfig
    let serverName := "https_enabled"
    let listenPorts : List String := [":80", ":443"]
    let servers := config.apps.http.servers.getD []
    let servers' :=
      match List.lookup serverName servers with
      | some server =>
        assocSet serverName
          { server with
            routes := server.routes ++ [newRoute]
            listen := mergeListen server.listen listenPorts } servers
      | none =>
        assocSet serverName { listen := listenPorts, routes := [newRoute] } servers
    let config1 := setServers config servers'
    match postErr with
    | some e => ⟨.error ("failed to update config: " ++ e), none, meta, [.fetch, .write]⟩
    | none => ⟨.ok (), some config1, meta, [.fetch, .write]⟩

/-- The server scan of `DeleteProxy`/`DeleteRedirect`: remove the routes
carrying `id` from the first server that has any, dropping the server if
no route remains; `none` when no server contains the identifier. -/
def deleteFromServers (id : String) :
    List (String × CaddyServer) → Option (List (String × CaddyServer))
  | [] => none
  | (nm, sv) :: rest =>
    if sv.routes.any (fun r => r.id = id) then
      let filtered := sv.routes.filter (fun r => r.id ≠ id)
      some (if filtered.isEmpty then rest else (nm, { sv with routes := filtered }) :: rest)
    else
      (deleteFromServers id rest).map (fun rest' => (nm, sv) :: rest')

/-- `caddy.(*Client).DeleteProxy`: the metadata entry is removed and the
store persisted before the live tree is fetched. -/
def deleteProxy (id : String) (getRes : Except String CaddyConfig)
    (postErr : Option String) (meta : MetadataStore) : OpOutcome :=
  let meta1 := meta.delete id
  match getRes with
  | .error e =>
    ⟨.error ("failed to get current config: " ++ e), none, meta1, [.saveMeta, .fetch]⟩
  | .ok c =>
    match c.apps.http.servers with
    | none =>
      ⟨.error "failed to get current config: <nil>", none, meta1, [.saveMeta, .fetch]⟩
    | some servers =>
      match deleteFromServers id servers with
      | none =>
        ⟨.error ("route with ID " ++ id ++ " not found"), none, meta1,
          [.saveMeta, .fetch]⟩
      | some servers' =>
        match postErr with
        | some e =>
          ⟨.error ("failed to update config: " ++ e), none, meta1,
            [.saveMeta, .fetch, .write]⟩
        | none =>
          ⟨.ok (), some (setServers c servers'), meta1, [.saveMeta, .fetch, .write]⟩

/-- `caddy.(*Client).DeleteRedirect` (no metadata involvement). -/
def deleteRedirect (id : String) (getRes : Except String CaddyConfig)
    (postErr : Option String) (meta : MetadataStore) : OpOutcome :=
  match getRes with
  | .error e => ⟨.error ("failed to get current config: " ++ e), none, meta, [.fetch]⟩
  | .ok c =>
    match c.apps.http.servers with
    | none => ⟨.error "failed to get current config: <nil>", none, meta, [.fetch]⟩
    | some servers =>
      match deleteFromServers id servers with
      | none =>
        ⟨.error ("redirect with ID " ++ id ++ " not found"), none, meta, [.fetch]⟩
      | some servers' =>
        match postErr with
        | some e =>
          ⟨.error ("failed to update config: " ++ e), none, meta, [.fetch, .write]⟩
        | none => ⟨.ok (), some (setServers c servers'), meta, [.fetch, .write]⟩

/-! ## Reconciler (`ParseProxiesFromConfig` / `ParseRedirectsFromConfig`) -/

/-- The domain decoding of `ParseProxiesFromConfig` for routes without a
host matcher: strip the `proxy_` prefix and trailing timestamp, rejoin,
and turn underscores back into colons. -/
def decodeProxyDomain (id : String) : Option String :=
  if strHasPrefix "proxy_" id then
    let parts := strSplitOn id '_'
    if parts.length ≥ 3 then
      some (strReplaceAll (strJoin '_' (parts.drop 1).dropLast) '_' ':')
    else none
  else none

/-- The loop body of `ParseProxiesFromConfig` for a single route. -/
def parseProxyRoute (meta : MetadataStore) (serverName : String)
    (server : CaddyServer) (route : CaddyRoute) : Option Proxy :=
  if route.id = "" then none
  else
    match route.handle.find? (fun h => h.handler = "reverse_proxy") with
    | none => none
    | some rp =>
      let base : Proxy :=
        { id := route.id, domain := "", targetURL := "", sslMode := ""
          challengeType := "", dnsProvider := "", dnsCredentials := []
          customHeaders := [], basicAuth := none, status := "active"
          healthCheckEnabled := false, healthCheckInterval := ""
          healthCheckPath := "", healthCheckExpectedStatus := 0
          allowedIPs := [], blockedIPs := []
          createdAt := "2024-01-01T00:00:00Z", updatedAt := "2024-01-01T00:00:00Z" }
      let p1 := meta.applyToProxy base
      let p2 :=
        match route.matchers.head? with
        | some m =>
          match m.host.head? with
          | some h => { p1 with domain := h }
          | none =>
            match decodeProxyDomain route.id with
            | some d => { p1 with domain := d }
            | none => p1
        | none =>
          match decodeProxyDomain route.id with
          | some d => { p1 with domain := d }
          | none => p1
      let p3 :=
        match rp.upstreams.head? with
        | some u =>
          let scheme := if strHasSuffix ":443" u.dial then "https" else "http"
          { p2 with targetURL := scheme ++ "://" ++ u.dial }
        | none => p2
      let hasHTTPS := server.listen.contains ":443"
      some { p3 with sslMode := if serverName = "http_only" ∨ ¬ hasHTTPS then "none" else "auto" }

/-- `caddy.(*Client).ParseProxiesFromConfig`. -/
def parseProxiesFromConfig (meta : MetadataStore) (config : CaddyConfig) : List Proxy :=
  match config.apps.http.servers with
  | none => []
  | some servers =>
    servers.flatMap (fun e => e.2.routes.filterMap (parseProxyRoute meta e.1 e.2))

/-- The last element of a list satisfying `p` (the Go loops keep
overwriting the handler variable, so the last match wins). -/
def findLastP {α : Type} (p : α → Bool) (l : List α) : Option α :=
  (l.filter p).getLast?

/-- The loop body of `ParseRedirectsFromConfig` for a single route. -/
def parseRedirectRoute (route : CaddyRoute) : Option Redirect :=
  if route.id = "" ∨ ¬ strHasPrefix "redirect_" route.id then none
  else
    let responseHandler := findLastP
      (fun h => h.handler = "static_response" && 301 ≤ h.statusCode && h.statusCode ≤ 302)
      route.handle
    let headersHandler := findLastP (fun h => h.handler = "headers") route.handle
    match responseHandler with
    | none => none
    | some rh =>
      let destinationURL :=
        match headersHandler with
        | some hh =>
          match hh.response with
          | some resp =>
            match List.lookup "Location" resp.set with
            | some (loc :: _) => loc
            | _ => ""
          | none => ""
        | none => ""
      if destinationURL = "" then none
      else
        let suffix := "\x7bhttp.request.uri\x7d"
        let (dest, preserve) :=
          if strHasSuffix suffix destinationURL then
            (strTrimSuffix destinationURL suffix, true)
          else (destinationURL, false)
        some { id := route.id
               sourceDomains := route.matchers.flatMap (fun m => m.host)
               destinationURL := dest
               redirectCode := rh.statusCode
               preservePath := preserve
               status := "active"
               createdAt := "2024-01-01T00:00:00Z"
               updatedAt := "2024-01-01T00:00:00Z" }

/-- `caddy.(*Client).ParseRedirectsFromConfig`. -/
def parseRedirectsFromConfig (config : CaddyConfig) : List Redirect :=
  match config.apps.http.servers with
  | none => []
  | some servers =>
    servers.flatMap (fun e => e.2.routes.filterMap parseRedirectRoute)

/-- Apply a sequence of `AddProxy` calls, each reading the tree the
previous one pushed (threading the metadata store along); a rejected call
leaves the tree unchanged. -/
def runAddProxies (env bhash : String → String) :
    CaddyConfig × MetadataStore → List Proxy → CaddyConfig × MetadataStore
  | st, [] => st
  | st, p :: ps =>
    let o := addProxy env bhash p (.ok st.1) none st.2
    runAddProxies env bhash (o.pushed.getD st.1, o.meta) ps

/-! ## Supporting lemmas -/

theorem lookup_cons_self {α : Type} (k : String) (v : α) (l : List (String × α)) :
    List.lookup k ((k, v) :: l) = some v := by
  simp [List.lookup]

theorem lookup_cons_ne {α : Type} (k k' : String) (v : α) (l : List (String × α))
    (h : k' ≠ k) : List.lookup k' ((k, v) :: l) = List.lookup k' l := by
  simp only [List.lookup]
  rw [show (k' == k) = false from beq_eq_false_iff_ne.mpr h]

theorem lookup_assocSet_self {α : Type} (k : String) (v : α) (l : List (String × α)) :
    List.lookup k (assocSet k v l) = some v := by
  unfold assocSet
  split
  case isTrue h =>
    induction l with
    | nil => simp at h
    | cons e rest ih =>
      rw [List.map_cons]
      by_cases he : e.1 = k
      · rw [if_pos he, lookup_cons_self]
      · rw [if_neg he]
        have he' : e = (e.1, e.2) := rfl
        rw [he', lookup_cons_ne _ _ _ _ (fun hk => he hk.symm)]
        simp only [List.any_cons, Bool.or_eq_true, decide_eq_true_eq] at h
        rcases h with h | h
        · exact absurd h he
        · exact ih (by simpa using h)
  case isFalse h =>
    induction l with
    | nil => simp [lookup_cons_self]
    | cons e rest ih =>
      simp only [List.any_cons, Bool.or_eq_true, decide_eq_true_eq, not_or] at h
      rw [List.cons_append]
      have he' : e = (e.1, e.2) := rfl
      rw [he', lookup_cons_ne _ _ _ _ (fun hk => h.1 hk.symm)]
      exact ih (by simpa using h.2)

theorem mem_assocSet_self {α : Type} (k : String) (v : α) (l : List (String × α)) :
    (k, v) ∈ assocSet k v l := by
  unfold assocSet
  split
  case isTrue h =>
    simp only [List.any_eq_true, decide_eq_true_eq] at h
    obtain ⟨e, he, hek⟩ := h
    have : (if e.1 = k then (k, v) else e) ∈
        l.map (fun e => if e.1 = k then (k, v) else e) := List.mem_map_of_mem _ he
    rwa [if_pos hek] at this
  case isFalse _ => simp

theorem lookup_assocSet_ne {α : Type} (k k' : String) (v : α) (l : List (String × α))
    (hne : k' ≠ k) : List.lookup k' (assocSet k v l) = List.lookup k' l := by
  unfold assocSet
  split
  case isTrue h =>
    clear h
    induction l with
    | nil => simp
    | cons e rest ih =>
      rw [List.map_cons]
      have he' : e = (e.1, e.2) := rfl
      by_cases he : e.1 = k
      · rw [if_pos he, lookup_cons_ne _ _ _ _ hne]
        conv_rhs => rw [he']
        rw [lookup_cons_ne _ _ _ _ (he ▸ hne)]
        exact ih
      · rw [if_neg he]
        by_cases hek : k' = e.1
        · conv_lhs => rw [he']
          conv_rhs => rw [he']
          rw [hek, lookup_cons_self, lookup_cons_self]
        · conv_lhs => rw [he']
          conv_rhs => rw [he']
          rw [lookup_cons_ne _ _ _ _ hek, lookup_cons_ne _ _ _ _ hek]
          exact ih
  case isFalse h =>
    clear h
    induction l with
    | nil =>
      rw [List.nil_append, lookup_cons_ne _ _ _ _ hne]
    | cons e rest ih =>
      rw [List.cons_append]
      have he' : e = (e.1, e.2) := rfl
      by_cases hek : k' = e.1
      · conv_lhs => rw [he']
        conv_rhs => rw [he']
        rw [hek, lookup_cons_self, lookup_cons_self]
      · conv_lhs => rw [he']
        conv_rhs => rw [he']
        rw [lookup_cons_ne _ _ _ _ hek, lookup_cons_ne _ _ _ _ hek]
        exact ih

theorem mem_mergeListen_left {x : String} {listen : List String} (ports : List String)
    (h : x ∈ listen) : x ∈ mergeListen listen ports := by
  induction ports generalizing listen with
  | nil => exact h
  | cons p rest ih =>
    unfold mergeListen
    rw [List.foldl_cons]
    apply ih
    split
    · exact h
    · exact List.mem_append_left _ h

theorem mem_mergeListen_right {x : String} {ports : List String} (listen : List String)
    (h : x ∈ ports) : x ∈ mergeListen listen ports := by
  induction ports generalizing listen with
  | nil => cases h
  | cons p rest ih =>
    unfold mergeListen
    rw [List.foldl_cons]
    rcases List.mem_cons.mp h with rfl | h
    · apply mem_mergeListen_left
      split
      case isTrue hc => simpa using hc
      case isFalse _ => exact List.mem_append_right _ (List.mem_singleton_self x)
    · exact ih _ h

theorem not_mem_mergeListen {x : String} {listen ports : List String}
    (h1 : x ∉ listen) (h2 : x ∉ ports) : x ∉ mergeListen listen ports := by
  induction ports generalizing listen with
  | nil => exact h1
  | cons p rest ih =>
    simp only [List.mem_cons, not_or] at h2
    unfold mergeListen
    rw [List.foldl_cons]
    refine ih ?_ h2.2
    split
    · exact h1
    · intro hx
      rcases List.mem_append.mp hx with hx | hx
      · exact h1 hx
      · exact h2.1 (List.mem_singleton.mp hx)

theorem configureDNSChallenge_http (env : String → String) (c : CaddyConfig)
    (p : Proxy) : (configureDNSChallenge env c p).apps.http = c.apps.http := by
  unfold configureDNSChallenge
  split <;> rfl

theorem buildReverseProxyHandler_ok {p : Proxy} {dial : String} {https : Bool}
    {host : String} (h : parseTargetURL p.targetURL = .ok (dial, https, host)) :
    ∃ hd, buildReverseProxyHandler p = .ok hd ∧
      hd.handler = "reverse_proxy" ∧ hd.upstreams = [{ dial := dial }] := by
  unfold buildReverseProxyHandler
  rw [h]
  exact ⟨_, rfl, rfl, rfl⟩

theorem buildProxyRoute_ok_of_inactive {bhash : String → String} {p : Proxy}
    {hd : CaddyHandler} (hrp : buildReverseProxyHandler p = .ok hd)
    (hna : basicAuthActive p = false) :
    buildProxyRoute bhash p =
      .ok { id := p.id, matchers := buildRouteMatchers p, handle := [hd] } := by
  unfold buildProxyRoute
  rw [hrp]
  unfold basicAuthActive at hna
  cases hba : p.basicAuth with
  | none => rfl
  | some ba =>
    rw [hba] at hna
    have hna' : (ba.enabled && decide (ba.username ≠ "") && decide (ba.password ≠ "")) = false := hna
    simp [hna']
    intro h1 h2
    by_contra h3
    simp [h1, h2, h3] at hna'

theorem buildProxyRoute_ok_of_active {bhash : String → String} {p : Proxy}
    {hd : CaddyHandler} {ba : BasicAuth} (hrp : buildReverseProxyHandler p = .ok hd)
    (hba : p.basicAuth = some ba) (ha : basicAuthActive p = true) :
    buildProxyRoute bhash p =
      .ok { id := p.id, matchers := buildRouteMatchers p,
            handle := [basicAuthHandler bhash ba, hd] } := by
  unfold buildProxyRoute
  rw [hrp]
  unfold basicAuthActive at ha
  rw [hba] at ha
  have ha' : (ba.enabled && decide (ba.username ≠ "") && decide (ba.password ≠ "")) = true := ha
  cases hpb : p.basicAuth with
  | none => rw [hpb] at hba; cases hba
  | some ba' =>
    rw [hpb] at hba
    cases hba
    simp only [Bool.and_eq_true, decide_eq_true_eq] at ha'
    simp [ha'.1.1, ha'.1.2, ha'.2]

theorem find?_reverse_proxy_noauth {hd : CaddyHandler}
    (h : hd.handler = "reverse_proxy") :
    List.find? (fun h => h.handler = "reverse_proxy") [hd] = some hd := by
  simp [List.find?, h]

theorem find?_reverse_proxy_auth {bhash : String → String} {ba : BasicAuth}
    {hd : CaddyHandler} (h : hd.handler = "reverse_proxy") :
    List.find? (fun h => h.handler = "reverse_proxy")
      [basicAuthHandler bhash ba, hd] = some hd := by
  simp [List.find?, basicAuthHandler, h]

theorem buildRouteMatchers_singleton {p : Proxy}
    (hdom : strContainsChar p.domain ':' = false) :
    ∃ m, buildRouteMatchers p = [m] ∧ m.host = [p.domain] := by
  by_cases hA : p.allowedIPs = []
  · by_cases hB : p.blockedIPs = []
    · exact ⟨.mk [p.domain] none none,
        by simp [buildRouteMatchers, hdom, hA, hB], rfl⟩
    · by_cases hBt : ∀ x ∈ p.blockedIPs, strTrimSpace x = ""
      · refine ⟨.mk [p.domain] none none, ?_, rfl⟩
        simp [buildRouteMatchers, hdom, hA, hB, hBt]
        intro x hx hne
        exact absurd (hBt x hx) hne
      · refine ⟨.mk [p.domain] none
            (some (.mk [] (some ⟨(p.blockedIPs.map strTrimSpace).filter (fun ip => ip ≠ "")⟩) none)),
          ?_, rfl⟩
        push_neg at hBt
        simp only [buildRouteMatchers, hdom]
        simp [hA, hB, hBt]
  · by_cases hAt : ∀ x ∈ p.allowedIPs, strTrimSpace x = ""
    · refine ⟨.mk [p.domain] none none, ?_, rfl⟩
      simp [buildRouteMatchers, hdom, hA, hAt]
      intro x hx hne
      exact absurd (hAt x hx) hne
    · refine ⟨.mk [p.domain]
          (some ⟨(p.allowedIPs.map strTrimSpace).filter (fun ip => ip ≠ "")⟩) none,
        ?_, rfl⟩
      push_neg at hAt
      simp [buildRouteMatchers, hdom, hA, hAt]

theorem addRouteToServers_self (env : String → String) (p : Proxy)
    (route : CaddyRoute) (servers : List (String × CaddyServer)) :
    ∃ sv, List.lookup (serverNameOf p) (addRouteToServers env p route servers) = some sv ∧
      (serverNameOf p, sv) ∈ addRouteToServers env p route servers ∧
      route ∈ sv.routes ∧
      (∀ x ∈ listenPortsOf p, x ∈ sv.listen) ∧
      (match List.lookup (serverNameOf p) servers with
       | some old =>
         sv.automaticHTTPS = old.automaticHTTPS ∧
         sv.listen = mergeListen old.listen (listenPortsOf p)
       | none =>
         sv.automaticHTTPS = (if p.sslMode = "none" then some { disable := true } else none) ∧
         sv.listen = listenPortsOf p) ∧
      (wantsDNSChallenge p → ∀ pol, createDNSChallengeTLSPolicy env p = some pol →
        sv.tlsPolicies.getLast? = some pol) := by
  simp only [addRouteToServers]
  cases hl : List.lookup (serverNameOf p) servers with
  | some server =>
    refine ⟨_, lookup_assocSet_self _ _ _, mem_assocSet_self _ _ _, ?_, ?_, ?_, ?_⟩
    · by_cases hdns : wantsDNSChallenge p
      · cases hpol : createDNSChallengeTLSPolicy env p <;> simp [hdns, hpol]
      · simp [hdns]
    · intro x hx
      by_cases hdns : wantsDNSChallenge p
      · cases hpol : createDNSChallengeTLSPolicy env p <;> simp [hdns, hpol] <;>
          exact mem_mergeListen_right _ hx
      · simp [hdns]
        exact mem_mergeListen_right _ hx
    · by_cases hdns : wantsDNSChallenge p
      · cases hpol : createDNSChallengeTLSPolicy env p <;> simp [hdns, hpol]
      · simp [hdns]
    · intro hw pol' hpol'
      simp [hw, hpol', List.getLast?_concat]
  | none =>
    refine ⟨_, lookup_assocSet_self _ _ _, mem_assocSet_self _ _ _, ?_, ?_, ?_, ?_⟩
    · by_cases hdns : wantsDNSChallenge p
      · cases hpol : createDNSChallengeTLSPolicy env p <;> simp [hdns, hpol]
      · simp [hdns]
    · intro x hx
      by_cases hdns : wantsDNSChallenge p
      · cases hpol : createDNSChallengeTLSPolicy env p <;> simp [hdns, hpol] <;> exact hx
      · simp [hdns]
        exact hx
    · by_cases hdns : wantsDNSChallenge p
      · cases hpol : createDNSChallengeTLSPolicy env p <;> simp [hdns, hpol]
      · simp [hdns]
    · intro hw pol' hpol'
      simp [hw, hpol']

theorem addProxy_ok_shape (env bhash : String → String) (p : Proxy)
    (cfg : CaddyConfig) (meta : MetadataStore) (route : CaddyRoute)
    (hA : validateIPList p.allowedIPs = .ok ())
    (hB : validateIPList p.blockedIPs = .ok ())
    (hroute : buildProxyRoute bhash p = .ok route) :
    ∃ cfg',
      addProxy env bhash p (.ok cfg) none meta =
        ⟨.ok (), some cfg', meta.set p, [.fetch, .saveMeta, .write]⟩ ∧
      cfg'.apps.http.servers = some (addRouteToServers env p route
        ((if cfg.apps.http.servers.isNone then freshConfig else cfg).apps.http.servers.getD [])) := by
  unfold addProxy
  rw [hA, hB, hroute]
  refine ⟨_, rfl, ?_⟩
  by_cases hdns : wantsDNSChallenge p
  · rw [if_pos hdns, configureDNSChallenge_http]
    rfl
  · rw [if_neg hdns]
    rfl

theorem parseProxyRoute_built {meta : MetadataStore} {p : Proxy} {serverName : String}
    {sv : CaddyServer} {route : CaddyRoute} {hd : CaddyHandler} {dial : String}
    {m : CaddyMatch} {rest : List CaddyMatch}
    (hid : p.id ≠ "")
    (hrid : route.id = p.id)
    (hm : route.matchers = m :: rest)
    (hhost : m.host = [p.domain])
    (hfind : route.handle.find? (fun h => h.handler = "reverse_proxy") = some hd)
    (hups : hd.upstreams = [{ dial := dial }])
    (hmeta : List.lookup p.id meta.data = some (metadataOfProxy p)) :
    ∃ q, parseProxyRoute meta serverName sv route = some q ∧
      q.id = p.id ∧
      q.domain = p.domain ∧
      q.targetURL = (if strHasSuffix ":443" dial then "https" else "http") ++ "://" ++ dial ∧
      q.sslMode = (if serverName = "http_only" ∨ ¬ sv.listen.contains ":443" = true
                   then "none" else "auto") ∧
      q.challengeType = p.challengeType ∧ q.dnsProvider = p.dnsProvider ∧
      q.dnsCredentials = p.dnsCredentials ∧ q.customHeaders = p.customHeaders ∧
      q.basicAuth = p.basicAuth ∧ q.healthCheckEnabled = p.healthCheckEnabled ∧
      q.healthCheckInterval = p.healthCheckInterval ∧
      q.healthCheckPath = p.healthCheckPath ∧
      q.healthCheckExpectedStatus = p.healthCheckExpectedStatus ∧
      q.createdAt = p.createdAt ∧ q.updatedAt = p.updatedAt := by
  simp only [parseProxyRoute, hrid, hfind, MetadataStore.applyToProxy, hm, hhost, hups,
    List.head?, hmeta, if_neg hid]
  exact ⟨_, rfl, rfl, rfl, rfl, rfl, rfl, rfl, rfl, rfl, rfl, rfl, rfl, rfl, rfl, rfl, rfl⟩

theorem parseProxies_mem {meta : MetadataStore} {cfg : CaddyConfig}
    {servers : List (String × CaddyServer)} {nm : String} {sv : CaddyServer}
    {route : CaddyRoute} {q : Proxy}
    (hs : cfg.apps.http.servers = some servers)
    (hmem : (nm, sv) ∈ servers) (hr : route ∈ sv.routes)
    (hp : parseProxyRoute meta nm sv route = some q) :
    q ∈ parseProxiesFromConfig meta cfg := by
  unfold parseProxiesFromConfig
  rw [hs]
  rw [List.mem_flatMap]
  exact ⟨(nm, sv), hmem, List.mem_filterMap.mpr ⟨route, hr, hp⟩⟩

theorem mem_443_listenPortsOf {p : Proxy} (h : p.sslMode ≠ "none") :
    ":443" ∈ listenPortsOf p := by
  unfold listenPortsOf
  rw [if_neg h]
  cases splitHostPort p.domain <;> simp

theorem basicAuthActive_some {p : Proxy} (h : basicAuthActive p = true) :
    ∃ ba, p.basicAuth = some ba := by
  unfold basicAuthActive at h
  cases hba : p.basicAuth with
  | none => rw [hba] at h; cases h
  | some ba => exact ⟨ba, rfl⟩

instance {α β : Type} [DecidableEq α] [DecidableEq β] : DecidableEq (Except α β) := by
  intro x y
  cases x <;> cases y
  case error.error a b =>
    by_cases h : a = b
    · exact isTrue (by rw [h])
    · exact isFalse (fun hh => h (by injection hh))
  case error.ok a b => exact isFalse (fun hh => by cases hh)
  case ok.error a b => exact isFalse (fun hh => by cases hh)
  case ok.ok a b =>
    by_cases h : a = b
    · exact isTrue (by rw [h])
    · exact isFalse (fun hh => h (by injection hh))

/-! ## Claim theorems -/

/-- A concrete environment (every variable unset). -/
def cenv : String → String := fun _ => ""

/-- A concrete stand-in for one sampled bcrypt hash function. -/
def chash : String → String := fun s => "bcrypt$" ++ s

/-- A valid concrete proxy whose target URL is written without an
explicit port. -/
def c1proxy : Proxy where
  id := "proxy_app_local_1"
  domain := "app.local"
  targetURL := "http://example.com"
  sslMode := "auto"
  challengeType := "http"
  dnsProvider := ""
  dnsCredentials := []
  customHeaders := []
  basicAuth := none
  status := "active"
  healthCheckEnabled := false
  healthCheckInterval := "30s"
  healthCheckPath := "/"
  healthCheckExpectedStatus := 200
  allowedIPs := []
  blockedIPs := []
  createdAt := "2024-05-01T00:00:00Z"
  updatedAt := "2024-05-01T00:00:00Z"

/-- C1, counterexample: for the valid proxy `c1proxy` with target URL
`"http://example.com"`, the proxy read back after `AddProxy` carries
target URL `"http://example.com:80"` — not exactly `p`'s target URL, so
the claimed exact round-trip fails. -/
theorem C1_counterexample :
    ((addProxy cenv chash c1proxy (.ok freshConfig) none emptyMeta).pushed.map
        (fun c => (parseProxiesFromConfig
          (addProxy cenv chash c1proxy (.ok freshConfig) none emptyMeta).meta c).map
            Proxy.targetURL)) = some ["http://example.com:80"] ∧
    c1proxy.targetURL = "http://example.com" ∧
    "http://example.com:80" ≠ "http://example.com" := by
  refine ⟨by decide, rfl, by decide⟩

/-- C1 (amended): for every valid proxy whose ID is non-empty, whose
domain has no embedded port, whose TLS mode is `auto` or `none`, and
whose target URL is already in the canonical `scheme://host:port` form
that the reconciler regenerates (`https` exactly for dial port 443),
`ParseProxiesFromConfig` after `AddProxy` yields a proxy whose domain,
target URL and TLS mode equal `p`'s, and whose overlay-only fields equal
`p`'s via the metadata overlay. -/
theorem C1_parse_add_roundtrip (env bhash : String → String) (p : Proxy)
    (cfg : CaddyConfig) (meta : MetadataStore)
    (hA : validateIPList p.allowedIPs = .ok ())
    (hB : validateIPList p.blockedIPs = .ok ())
    (hid : p.id ≠ "")
    (hdom : strContainsChar p.domain ':' = false)
    (hmode : p.sslMode = "auto" ∨ p.sslMode = "none")
    (hT : ∃ dial https host, parseTargetURL p.targetURL = .ok (dial, https, host) ∧
          p.targetURL = (if strHasSuffix ":443" dial then "https" else "http") ++
            "://" ++ dial) :
    ∃ cfg', (addProxy env bhash p (.ok cfg) none meta).pushed = some cfg' ∧
      ∃ q ∈ parseProxiesFromConfig (addProxy env bhash p (.ok cfg) none meta).meta cfg',
        q.domain = p.domain ∧ q.targetURL = p.targetURL ∧ q.sslMode = p.sslMode ∧
        q.challengeType = p.challengeType ∧ q.dnsProvider = p.dnsProvider ∧
        q.dnsCredentials = p.dnsCredentials ∧ q.customHeaders = p.customHeaders ∧
        q.basicAuth = p.basicAuth ∧ q.healthCheckEnabled = p.healthCheckEnabled ∧
        q.healthCheckInterval = p.healthCheckInterval ∧
        q.healthCheckPath = p.healthCheckPath ∧
        q.healthCheckExpectedStatus = p.healthCheckExpectedStatus ∧
        q.createdAt = p.createdAt ∧ q.updatedAt = p.updatedAt := by
  obtain ⟨dial, https, host, hpt, hcanon⟩ := hT
  obtain ⟨hd, hrp, hhdl, hups⟩ := buildReverseProxyHandler_ok hpt
  obtain ⟨m, hmGet, hhost⟩ := buildRouteMatchers_singleton hdom
  have hbuild : ∃ route, buildProxyRoute bhash p = .ok route ∧
      route.id = p.id ∧ route.matchers = buildRouteMatchers p ∧
      route.handle.find? (fun h => h.handler = "reverse_proxy") = some hd := by
    cases hact : basicAuthActive p with
    | false =>
      exact ⟨_, buildProxyRoute_ok_of_inactive hrp hact, rfl, rfl,
        find?_reverse_proxy_noauth hhdl⟩
    | true =>
      obtain ⟨ba, hba⟩ := basicAuthActive_some hact
      exact ⟨_, buildProxyRoute_ok_of_active hrp hba hact, rfl, rfl,
        find?_reverse_proxy_auth hhdl⟩
  obtain ⟨route, hroute, hrid, hrm, hfind⟩ := hbuild
  obtain ⟨cfg', hout, hs⟩ := addProxy_ok_shape env bhash p cfg meta route hA hB hroute
  obtain ⟨sv, _, hmem, hrmem, hports, _, _⟩ :=
    addRouteToServers_self env p route
      ((if cfg.apps.http.servers.isNone then freshConfig else cfg).apps.http.servers.getD [])
  have hmeta : List.lookup p.id ((addProxy env bhash p (.ok cfg) none meta).meta).data =
      some (metadataOfProxy p) := by
    rw [hout]
    exact lookup_assocSet_self _ _ _
  obtain ⟨q, hq, hqid, hqdom, hqtarget, hqssl, hqrest⟩ :=
    parseProxyRoute_built hid hrid (hrm.trans hmGet) hhost hfind hups hmeta
  refine ⟨cfg', by rw [hout], q, parseProxies_mem hs hmem hrmem hq, hqdom, ?_, ?_, hqrest⟩
  · rw [hqtarget, hcanon]
  · rw [hqssl]
    rcases hmode with hauto | hnone
    · have hname : serverNameOf p = "https_enabled" := by
        unfold serverNameOf
        rw [if_neg (by rw [hauto]; decide)]
      have h443 : sv.listen.contains ":443" = true := by
        have := hports ":443" (mem_443_listenPortsOf (by rw [hauto]; decide))
        simpa using this
      rw [hname] at hqssl ⊢
      rw [h443, hauto]
      simp
    · have hname : serverNameOf p = "http_only" := by
        unfold serverNameOf
        rw [if_pos hnone]
      rw [hname, hnone]
      simp

/-- A valid concrete proxy in canonical form, exercising the metadata
overlay, IP validation and basic auth. -/
def c1wproxy : Proxy where
  id := "proxy_app_local_2"
  domain := "app.local"
  targetURL := "http://10.0.0.5:8080"
  sslMode := "auto"
  challengeType := "http"
  dnsProvider := ""
  dnsCredentials := [("k", "v")]
  customHeaders := [("X-Custom", "1")]
  basicAuth := some { enabled := true, username := "u", password := "pw" }
  status := "active"
  healthCheckEnabled := true
  healthCheckInterval := "30s"
  healthCheckPath := "/health"
  healthCheckExpectedStatus := 200
  allowedIPs := ["10.0.0.0/8"]
  blockedIPs := []
  createdAt := "2024-05-01T00:00:00Z"
  updatedAt := "2024-05-02T00:00:00Z"

/-- Witness for the amended C1 at the concrete proxy `c1wproxy`. -/
theorem C1_witness :
    ∃ cfg', (addProxy cenv chash c1wproxy (.ok freshConfig) none emptyMeta).pushed = some cfg' ∧
      ∃ q ∈ parseProxiesFromConfig
          (addProxy cenv chash c1wproxy (.ok freshConfig) none emptyMeta).meta cfg',
        q.domain = c1wproxy.domain ∧ q.targetURL = c1wproxy.targetURL ∧
        q.sslMode = c1wproxy.sslMode ∧
        q.challengeType = c1wproxy.challengeType ∧ q.dnsProvider = c1wproxy.dnsProvider ∧
        q.dnsCredentials = c1wproxy.dnsCredentials ∧ q.customHeaders = c1wproxy.customHeaders ∧
        q.basicAuth = c1wproxy.basicAuth ∧ q.healthCheckEnabled = c1wproxy.healthCheckEnabled ∧
        q.healthCheckInterval = c1wproxy.healthCheckInterval ∧
        q.healthCheckPath = c1wproxy.healthCheckPath ∧
        q.healthCheckExpectedStatus = c1wproxy.healthCheckExpectedStatus ∧
        q.createdAt = c1wproxy.createdAt ∧ q.updatedAt = c1wproxy.updatedAt :=
  C1_parse_add_roundtrip cenv chash c1wproxy freshConfig emptyMeta
    (by decide) (by decide) (by decide) (by decide) (Or.inl rfl)
    ⟨"10.0.0.5:8080", false, "10.0.0.5", by decide, by decide⟩

/-! ### C3: validation happens before any tree mutation -/

/-- An IP-list entry that survives trimming but is neither a valid IP
address nor a valid CIDR range. -/
def invalidIPEntry (s : String) : Prop :=
  strTrimSpace s ≠ "" ∧ parseIPBool (strTrimSpace s) = false ∧
    parseCIDRBool (strTrimSpace s) = false

theorem validateIPOrCIDR_invalid {s : String} (h2 : parseIPBool s = false)
    (h3 : parseCIDRBool s = false) :
    validateIPOrCIDR s = .error ("invalid IP address or CIDR range: " ++ s) := by
  unfold validateIPOrCIDR
  rw [h2, h3]
  simp

theorem validateIPList_invalid {ips : List String}
    (h : ∃ s ∈ ips, invalidIPEntry s) : ∃ e, validateIPList ips = .error e := by
  induction ips with
  | nil =>
    obtain ⟨s, hs, _⟩ := h
    cases hs
  | cons ip rest ih =>
    obtain ⟨s, hs, hinv⟩ := h
    rcases List.mem_cons.mp hs with rfl | hs'
    · simp only [validateIPList]
      rw [if_pos hinv.1, validateIPOrCIDR_invalid hinv.2.1 hinv.2.2]
      exact ⟨_, rfl⟩
    · simp only [validateIPList]
      by_cases ht : strTrimSpace ip ≠ ""
      · rw [if_pos ht]
        cases hV : validateIPOrCIDR (strTrimSpace ip) with
        | error e => exact ⟨e, rfl⟩
        | ok u => exact ih ⟨s, hs', hinv⟩
      · rw [if_neg ht]
        exact ih ⟨s, hs', hinv⟩

theorem redirectValidate_bad_code {r : Redirect} (h1 : r.redirectCode ≠ 301)
    (h2 : r.redirectCode ≠ 302) : ∃ e, redirectValidate r = .error e := by
  unfold redirectValidate
  by_cases hs : r.sourceDomains = []
  · rw [if_pos hs]
    exact ⟨_, rfl⟩
  · rw [if_neg hs]
    by_cases hd : r.destinationURL = ""
    · rw [if_pos hd]
      exact ⟨_, rfl⟩
    · rw [if_neg hd, if_pos ⟨h1, h2⟩]
      exact ⟨_, rfl⟩

/-- C3: a Proxy whose allow-list or block-list contains an entry that is
neither a valid IP nor a valid CIDR makes `AddProxy` fail with a
validation error before any transport effect (nothing fetched, nothing
written, metadata untouched); a Redirect whose code is outside
`{301, 302}` makes `AddRedirect` fail the same way. -/
theorem C3_validation_before_mutation :
    (∀ (env bhash : String → String) (p : Proxy) (getRes : Except String CaddyConfig)
        (postErr : Option String) (meta : MetadataStore),
      ((∃ s ∈ p.allowedIPs, invalidIPEntry s) ∨ (∃ s ∈ p.blockedIPs, invalidIPEntry s)) →
      ∃ e, (addProxy env bhash p getRes postErr meta).res = .error e ∧
        (addProxy env bhash p getRes postErr meta).pushed = none ∧
        (addProxy env bhash p getRes postErr meta).events = [] ∧
        (addProxy env bhash p getRes postErr meta).meta = meta) ∧
    (∀ (r : Redirect) (getRes : Except String CaddyConfig)
        (postErr : Option String) (meta : MetadataStore),
      r.redirectCode ≠ 301 → r.redirectCode ≠ 302 →
      ∃ e, (addRedirect r getRes postErr meta).res = .error e ∧
        (addRedirect r getRes postErr meta).pushed = none ∧
        (addRedirect r getRes postErr meta).events = [] ∧
        (addRedirect r getRes postErr meta).meta = meta) := by
  constructor
  · intro env bhash p getRes postErr meta hbad
    unfold addProxy
    rcases hbad with hbadA | hbadB
    · obtain ⟨e, he⟩ := validateIPList_invalid hbadA
      rw [he]
      exact ⟨_, rfl, rfl, rfl, rfl⟩
    · cases hA : validateIPList p.allowedIPs with
      | error e => exact ⟨_, rfl, rfl, rfl, rfl⟩
      | ok u =>
        obtain ⟨e, he⟩ := validateIPList_invalid hbadB
        rw [he]
        exact ⟨_, rfl, rfl, rfl, rfl⟩
  · intro r getRes postErr meta h1 h2
    obtain ⟨e, he⟩ := redirectValidate_bad_code h1 h2
    unfold addRedirect
    rw [he]
    exact ⟨_, rfl, rfl, rfl, rfl⟩

/-- A concrete redirect with an unsupported status code. -/
def c3redirect : Redirect where
  id := "redirect_a_1"
  sourceDomains := ["a.com"]
  destinationURL := "https://b.com"
  redirectCode := 303
  preservePath := false
  status := "active"
  createdAt := "t"
  updatedAt := "t"

/-- Witness for C3 at the spec's own example `"300.1.1.1/40"` and at a
redirect code 303. -/
theorem C3_witness :
    (∃ e, (addProxy cenv chash { c1proxy with allowedIPs := ["300.1.1.1/40"] }
        (.ok freshConfig) none emptyMeta).res = .error e ∧
      (addProxy cenv chash { c1proxy with allowedIPs := ["300.1.1.1/40"] }
        (.ok freshConfig) none emptyMeta).pushed = none ∧
      (addProxy cenv chash { c1proxy with allowedIPs := ["300.1.1.1/40"] }
        (.ok freshConfig) none emptyMeta).events = [] ∧
      (addProxy cenv chash { c1proxy with allowedIPs := ["300.1.1.1/40"] }
        (.ok freshConfig) none emptyMeta).meta = emptyMeta) ∧
    (∃ e, (addRedirect c3redirect (.ok freshConfig) none emptyMeta).res = .error e ∧
      (addRedirect c3redirect (.ok freshConfig) none emptyMeta).pushed = none ∧
      (addRedirect c3redirect (.ok freshConfig) none emptyMeta).events = [] ∧
      (addRedirect c3redirect (.ok freshConfig) none emptyMeta).meta = emptyMeta) :=
  ⟨C3_validation_before_mutation.1 cenv chash _ _ none emptyMeta
      (Or.inl ⟨"300.1.1.1/40", by decide, by decide, by decide, by decide⟩),
   C3_validation_before_mutation.2 c3redirect _ none emptyMeta (by decide) (by decide)⟩

/-! ### C10: DeleteProxy removes the overlay entry before consulting the tree -/

/-- C10: `DeleteProxy(id)` always deletes the metadata-overlay entry for
`id` and persists the store before the live tree is fetched (the trace
starts `[saveMeta, fetch]`); in particular the entry is gone even when
the fetch fails or no route carries `id`. -/
theorem C10_delete_metadata_first (id : String) (getRes : Except String CaddyConfig)
    (postErr : Option String) (meta : MetadataStore) :
    (deleteProxy id getRes postErr meta).meta = meta.delete id ∧
    (deleteProxy id getRes postErr meta).events.take 2 = [.saveMeta, .fetch] ∧
    (∀ e, getRes = .error e →
      (deleteProxy id getRes postErr meta).res =
        .error ("failed to get current config: " ++ e) ∧
      (deleteProxy id getRes postErr meta).meta = meta.delete id) := by
  cases getRes with
  | error e =>
    refine ⟨rfl, rfl, fun e' he' => ?_⟩
    obtain rfl : e = e' := by injection he'
    exact ⟨rfl, rfl⟩
  | ok c =>
    cases hs : c.apps.http.servers with
    | none =>
      refine ⟨by simp [deleteProxy, hs], by simp [deleteProxy, hs], fun e' he' => ?_⟩
      cases he'
    | some servers =>
      cases hd : deleteFromServers id servers with
      | none =>
        refine ⟨by simp [deleteProxy, hs, hd], by simp [deleteProxy, hs, hd],
          fun e' he' => ?_⟩
        cases he'
      | some servers' =>
        cases postErr with
        | none =>
          refine ⟨by simp [deleteProxy, hs, hd], by simp [deleteProxy, hs, hd],
            fun e' he' => ?_⟩
          cases he'
        | some e =>
          refine ⟨by simp [deleteProxy, hs, hd], by simp [deleteProxy, hs, hd],
            fun e' he' => ?_⟩
          cases he'

/-- Witness for C10: deleting an absent identifier with a failing fetch
still removes the overlay entry. -/
theorem C10_witness :
    (deleteProxy "proxy_x_1" (.error "connection refused") none
        (MetadataStore.set emptyMeta c1proxy)).meta =
      (MetadataStore.set emptyMeta c1proxy).delete "proxy_x_1" ∧
    (deleteProxy "proxy_x_1" (.error "connection refused") none
        (MetadataStore.set emptyMeta c1proxy)).events.take 2 = [.saveMeta, .fetch] ∧
    (∀ e, (.error "connection refused" : Except String CaddyConfig) = .error e →
      (deleteProxy "proxy_x_1" (.error "connection refused") none
          (MetadataStore.set emptyMeta c1proxy)).res =
        .error ("failed to get current config: " ++ e) ∧
      (deleteProxy "proxy_x_1" (.error "connection refused") none
          (MetadataStore.set emptyMeta c1proxy)).meta =
        (MetadataStore.set emptyMeta c1proxy).delete "proxy_x_1") :=
  C10_delete_metadata_first "proxy_x_1" (.error "connection refused") none
    (MetadataStore.set emptyMeta c1proxy)

/-! ### C5: the proxy-ID encoding and its decoding -/

theorem strReplaceAll_eq_self {s : String} {a b : Char} (h : a ∉ s.data) :
    strReplaceAll s a b = s := by
  unfold strReplaceAll
  have h1 : s.data.map (fun ch => if ch = a then b else ch) = s.data := by
    rw [show s.data = s.data.map id by simp]
    rw [List.map_map]
    exact List.map_congr_left (fun x hx => by
      simp only [Function.comp_apply, id]
      rw [if_neg (fun hxa => h (by rw [← hxa]; exact hx))])
  rw [h1]

/-- C5, counterexample: `GenerateProxyID` replaces only dots (not
colons) and the reconciler's decoding turns underscores into colons, so
even the underscore-free domain `"example.com"` fails to round-trip: it
decodes to `"example:com"`. -/
theorem C5_counterexample :
    decodeProxyDomain (generateProxyID "example.com" "1755490936") = some "example:com" ∧
    "example:com" ≠ "example.com" := by
  refine ⟨by decide, by decide⟩

/-- C5 (amended): the ID encoding replaces only dots with underscores,
and the decoder rebuilds the domain by turning underscores into colons;
hence decoding inverts encoding exactly for domains containing neither a
dot nor an underscore (for any underscore-free timestamp); lossiness
extends to every domain with a dot or an underscore. -/
theorem C5_decode_roundtrip (domain ts : String)
    (hdot : '.' ∉ domain.data) (hus : '_' ∉ domain.data) (hts : '_' ∉ ts.data) :
    decodeProxyDomain (generateProxyID domain ts) = some domain := by
  have henc : generateProxyID domain ts = "proxy_" ++ domain ++ "_" ++ ts := by
    unfold generateProxyID
    rw [strReplaceAll_eq_self hdot]
  rw [henc]
  have hdata : ("proxy_" ++ domain ++ "_" ++ ts).data =
      "proxy".data ++ '_' :: (domain.data ++ '_' :: ts.data) := by
    show "proxy".data ++ ['_'] ++ domain.data ++ ['_'] ++ ts.data =
      "proxy".data ++ '_' :: (domain.data ++ '_' :: ts.data)
    simp
  have hpre : strHasPrefix "proxy_" ("proxy_" ++ domain ++ "_" ++ ts) = true := by
    unfold strHasPrefix
    rw [List.isPrefixOf_iff_prefix]
    show "proxy_".data <+: "proxy_".data ++ (domain ++ "_" ++ ts).data
    exact List.prefix_append _ _
  have hsplit : strSplitOn ("proxy_" ++ domain ++ "_" ++ ts) '_' =
      ["proxy", domain, ts] := by
    unfold strSplitOn
    rw [hdata]
    rw [splitOnChar_append_sep '_' _ _ (by decide)]
    rw [splitOnChar_append_sep '_' _ _ hus]
    rw [splitOnChar_of_not_mem '_' _ hts]
    rfl
  unfold decodeProxyDomain
  rw [hpre, if_pos rfl, hsplit]
  have hlen : ([ "proxy", domain, ts ] : List String).length ≥ 3 := by simp
  rw [if_pos hlen]
  show some (strReplaceAll (strJoin '_' [domain]) '_' ':') = some domain
  have hjoin : strJoin '_' [domain] = domain := rfl
  rw [hjoin, strReplaceAll_eq_self hus]

/-- Witness for the amended C5 at `"localhost:9801"` (a port-qualified,
dot-free domain — the case the decoder was written for). -/
theorem C5_witness : decodeProxyDomain (generateProxyID "localhost:9801" "1755490936") =
    some "localhost:9801" :=
  C5_decode_roundtrip "localhost:9801" "1755490936" (by decide) (by decide) (by decide)

/-! ### C2: which transport errors are surfaced -/

/-- The outcome of an `AddProxy` whose fetch of the current tree fails. -/
def c2out : OpOutcome :=
  addProxy cenv chash c1proxy (.error "connection refused") none emptyMeta

/-- C2, counterexample: when the fetch of the current tree fails during
`AddProxy`, the error is not returned — the operation proceeds from an
empty tree and reports success. -/
theorem C2_counterexample : c2out.res = .ok () ∧ c2out.pushed.isSome = true := by
  refine ⟨by decide, by decide⟩

/-- C2 (amended): `GetConfig` surfaces unreachability and non-200
statuses as errors; a failed config write surfaces as an error from
`AddProxy`, `AddRedirect` and `DeleteProxy`; `DeleteProxy` and
`DeleteRedirect` return a failed fetch (wrapped) to the caller.  But
`AddProxy`/`AddRedirect` swallow a failed fetch and rebuild from an
empty tree, so the fetch error is not returned there. -/
theorem C2_transport_errors_surfaced :
    (∀ (e : String) (st : Nat) (b : CaddyConfig),
      getConfigModel (some e) st b = .error e) ∧
    (∀ (st : Nat) (b : CaddyConfig), st ≠ 200 →
      getConfigModel none st b = .error ("caddy API returned status " ++ toString st)) ∧
    (∀ (id e : String) (postErr : Option String) (meta : MetadataStore),
      (deleteProxy id (.error e) postErr meta).res =
        .error ("failed to get current config: " ++ e) ∧
      (deleteRedirect id (.error e) postErr meta).res =
        .error ("failed to get current config: " ++ e)) ∧
    (∀ (env bhash : String → String) (p : Proxy) (getRes : Except String CaddyConfig)
        (e : String) (meta : MetadataStore) (route : CaddyRoute),
      validateIPList p.allowedIPs = .ok () → validateIPList p.blockedIPs = .ok () →
      buildProxyRoute bhash p = .ok route →
      (addProxy env bhash p getRes (some e) meta).res =
        .error ("failed to update config: " ++ e)) ∧
    (∀ (r : Redirect) (getRes : Except String CaddyConfig) (e : String)
        (meta : MetadataStore),
      redirectValidate r = .ok () →
      (addRedirect r getRes (some e) meta).res =
        .error ("failed to update config: " ++ e)) ∧
    (∀ (id : String) (c : CaddyConfig) (servers servers' : List (String × CaddyServer))
        (e : String) (meta : MetadataStore),
      c.apps.http.servers = some servers → deleteFromServers id servers = some servers' →
      (deleteProxy id (.ok c) (some e) meta).res =
        .error ("failed to update config: " ++ e)) := by
  refine ⟨fun e st b => rfl, ?_, fun id e postErr meta => ⟨rfl, rfl⟩, ?_, ?_, ?_⟩
  · intro st b h
    simp [getConfigModel, h]
  · intro env bhash p getRes e meta route hA hB hroute
    unfold addProxy
    rw [hA, hB, hroute]
  · intro r getRes e meta hval
    unfold addRedirect
    rw [hval]
  · intro id c servers servers' e meta hs hd
    simp [deleteProxy, hs, hd]

/-- Two routes with the same identifier in different buckets, plus a
second route in the first bucket. -/
def c4routeX : CaddyRoute := { id := "x", matchers := [], handle := [] }

/-- A second route, used to keep a bucket non-empty after a delete. -/
def c4routeY : CaddyRoute := { id := "y", matchers := [], handle := [] }

/-- A tree whose buckets `a` and `b` both contain a route with ID `x`. -/
def c4cfg : CaddyConfig :=
  ⟨⟨⟨some [("a", { listen := [":80"], routes := [c4routeX, c4routeY] }),
           ("b", { listen := [":80"], routes := [c4routeX] })]⟩, none⟩⟩

/-- A valid concrete redirect. -/
def c2redirect : Redirect where
  id := "redirect_a_1"
  sourceDomains := ["a.com"]
  destinationURL := "https://b.com"
  redirectCode := 301
  preservePath := false
  status := "active"
  createdAt := "t"
  updatedAt := "t"

/-- Witness for the amended C2 at concrete transport failures. -/
theorem C2_witness :
    getConfigModel (some "connection refused") 200 freshConfig =
      .error "connection refused" ∧
    getConfigModel none 500 freshConfig = .error ("caddy API returned status " ++ toString 500) ∧
    ((deleteProxy "x" (.error "down") none emptyMeta).res =
      .error ("failed to get current config: " ++ "down") ∧
     (deleteRedirect "x" (.error "down") none emptyMeta).res =
      .error ("failed to get current config: " ++ "down")) ∧
    (addProxy cenv chash c1proxy (.ok freshConfig) (some "bad payload") emptyMeta).res =
      .error ("failed to update config: " ++ "bad payload") ∧
    (addRedirect c2redirect (.ok freshConfig) (some "bad payload") emptyMeta).res =
      .error ("failed to update config: " ++ "bad payload") ∧
    (deleteProxy "y" (.ok c4cfg) (some "bad payload") emptyMeta).res =
      .error ("failed to update config: " ++ "bad payload") :=
  ⟨C2_transport_errors_surfaced.1 "connection refused" 200 freshConfig,
   C2_transport_errors_surfaced.2.1 500 freshConfig (by decide),
   C2_transport_errors_surfaced.2.2.1 "x" "down" none emptyMeta,
   C2_transport_errors_surfaced.2.2.2.1 cenv chash c1proxy (.ok freshConfig)
     "bad payload" emptyMeta _ (by decide) (by decide) rfl,
   C2_transport_errors_surfaced.2.2.2.2.1 c2redirect (.ok freshConfig)
     "bad payload" emptyMeta (by decide),
   C2_transport_errors_surfaced.2.2.2.2.2 "y" c4cfg _ _ "bad payload" emptyMeta rfl rfl⟩

/-! ### C4: DeleteProxy and the server buckets -/

theorem deleteFromServers_eq_none_iff (id : String)
    (servers : List (String × CaddyServer)) :
    deleteFromServers id servers = none ↔
      ∀ e ∈ servers, ∀ r ∈ e.2.routes, r.id ≠ id := by
  induction servers with
  | nil => simp [deleteFromServers]
  | cons e rest ih =>
    obtain ⟨nm, sv⟩ := e
    simp only [deleteFromServers]
    by_cases hf : sv.routes.any (fun r => r.id = id) = true
    · rw [if_pos hf]
      constructor
      · intro h
        cases h
      · intro hall
        exfalso
        obtain ⟨r, hr, hrid⟩ := List.any_eq_true.mp hf
        exact hall (nm, sv) (List.mem_cons_self _ _) r hr (of_decide_eq_true hrid)
    · rw [if_neg hf]
      rw [Option.map_eq_none']
      rw [ih]
      constructor
      · intro hrest e' he' r hr
        rcases List.mem_cons.mp he' with rfl | he''
        · intro hrid
          exact hf (List.any_eq_true.mpr ⟨r, hr, decide_eq_true hrid⟩)
        · exact hrest _ he'' r hr
      · intro hall e' he' r hr
        exact hall _ (List.mem_cons_of_mem _ he') r hr

theorem deleteFromServers_found {id : String} {servers : List (String × CaddyServer)}
    (h : ∃ e ∈ servers, ∃ r ∈ e.2.routes, r.id = id) :
    ∃ servers', deleteFromServers id servers = some servers' := by
  cases hd : deleteFromServers id servers with
  | some s' => exact ⟨s', rfl⟩
  | none =>
    obtain ⟨e, he, r, hr, hrid⟩ := h
    exact absurd hrid ((deleteFromServers_eq_none_iff id servers).mp hd e he r hr)

theorem deleteFromServers_removed (id : String) {servers servers' : List (String × CaddyServer)}
    (huniq : servers.countP (fun e => e.2.routes.any (fun r => r.id = id)) ≤ 1)
    (hdel : deleteFromServers id servers = some servers') :
    ∀ e ∈ servers', ∀ r ∈ e.2.routes, r.id ≠ id := by
  induction servers generalizing servers' with
  | nil => cases hdel
  | cons e rest ih =>
    obtain ⟨nm, sv⟩ := e
    simp only [deleteFromServers] at hdel
    by_cases hf : sv.routes.any (fun r => r.id = id) = true
    · rw [if_pos hf] at hdel
      injection hdel with hdel'
      have hrest0 : rest.countP (fun e => e.2.routes.any (fun r => r.id = id)) = 0 := by
        rw [List.countP_cons] at huniq
        simp only [hf, if_pos] at huniq
        omega
      have hrestAll : ∀ e ∈ rest, ∀ r ∈ e.2.routes, r.id ≠ id := by
        intro e he r hr hrid
        have hz := List.countP_eq_zero.mp hrest0 e he
        exact hz (List.any_eq_true.mpr ⟨r, hr, decide_eq_true hrid⟩)
      subst hdel'
      by_cases hemp : (sv.routes.filter (fun r => r.id ≠ id)).isEmpty = true
      · rw [if_pos hemp]
        exact hrestAll
      · rw [if_neg hemp]
        intro e' he' r hr
        rcases List.mem_cons.mp he' with rfl | he''
        · have := List.mem_filter.mp hr
          exact of_decide_eq_true this.2
        · exact hrestAll _ he'' r hr
    · rw [if_neg hf] at hdel
      obtain ⟨rest', hrest', rfl⟩ :
          ∃ rest', deleteFromServers id rest = some rest' ∧
            servers' = (nm, sv) :: rest' := by
        cases hdd : deleteFromServers id rest with
        | none => rw [hdd] at hdel; cases hdel
        | some rest' =>
          rw [hdd] at hdel
          injection hdel with h
          exact ⟨rest', rfl, h.symm⟩
      have huniq' : rest.countP (fun e => e.2.routes.any (fun r => r.id = id)) ≤ 1 := by
        rw [List.countP_cons] at huniq
        omega
      intro e' he' r hr
      rcases List.mem_cons.mp he' with rfl | he''
      · intro hrid
        exact hf (List.any_eq_true.mpr ⟨r, hr, decide_eq_true hrid⟩)
      · exact ih huniq' hrest' _ he'' r hr

theorem deleteFromServers_no_empty (id : String)
    {servers servers' : List (String × CaddyServer)}
    (hne : ∀ e ∈ servers, e.2.routes ≠ [])
    (hdel : deleteFromServers id servers = some servers') :
    ∀ e ∈ servers', e.2.routes ≠ [] := by
  induction servers generalizing servers' with
  | nil => cases hdel
  | cons e rest ih =>
    obtain ⟨nm, sv⟩ := e
    simp only [deleteFromServers] at hdel
    have hneRest : ∀ e ∈ rest, e.2.routes ≠ [] :=
      fun e he => hne e (List.mem_cons_of_mem _ he)
    by_cases hf : sv.routes.any (fun r => r.id = id) = true
    · rw [if_pos hf] at hdel
      injection hdel with hdel'
      subst hdel'
      by_cases hemp : (sv.routes.filter (fun r => r.id ≠ id)).isEmpty = true
      · rw [if_pos hemp]
        exact hneRest
      · rw [if_neg hemp]
        intro e' he'
        rcases List.mem_cons.mp he' with rfl | he''
        · simpa using hemp
        · exact hneRest _ he''
    · rw [if_neg hf] at hdel
      obtain ⟨rest', hrest', rfl⟩ :
          ∃ rest', deleteFromServers id rest = some rest' ∧
            servers' = (nm, sv) :: rest' := by
        cases hdd : deleteFromServers id rest with
        | none => rw [hdd] at hdel; cases hdel
        | some rest' =>
          rw [hdd] at hdel
          injection hdel with h
          exact ⟨rest', rfl, h.symm⟩
      intro e' he'
      rcases List.mem_cons.mp he' with rfl | he''
      · exact hne _ (List.mem_cons_self _ _)
      · exact ih hneRest hrest' _ he''

/-- C4, counterexample: when two buckets both carry a route with the
identifier, `DeleteProxy` removes it only from the first bucket it
finds — bucket `b` still contains route `x` afterwards, so the route is
not removed from every bucket. -/
theorem C4_counterexample :
    (deleteProxy "x" (.ok c4cfg) none emptyMeta).res = .ok () ∧
    ((deleteProxy "x" (.ok c4cfg) none emptyMeta).pushed.map
      (fun c => (c.apps.http.servers.getD []).map
        (fun e => (e.1, e.2.routes.map CaddyRoute.id)))) =
      some [("a", ["y"]), ("b", ["x"])] := by
  refine ⟨by decide, by decide⟩

/-- C4 (amended): `DeleteProxy(id)` removes the routes carrying `id`
from the first bucket that contains one; when at most one bucket
contains such a route — as holds for trees built by `AddProxy` — this
removes the route from every bucket, deleting the bucket when it was its
only route (no empty bucket remains); when no bucket contains a route
with `id`, a not-found error is returned. -/
theorem C4_delete_removes_route (id : String) (c : CaddyConfig)
    (servers : List (String × CaddyServer)) (meta : MetadataStore)
    (hs : c.apps.http.servers = some servers) :
    ((∀ e ∈ servers, ∀ r ∈ e.2.routes, r.id ≠ id) →
      (deleteProxy id (.ok c) none meta).res =
        .error ("route with ID " ++ id ++ " not found")) ∧
    (servers.countP (fun e => e.2.routes.any (fun r => r.id = id)) ≤ 1 →
     (∃ e ∈ servers, ∃ r ∈ e.2.routes, r.id = id) →
     ∃ servers', (deleteProxy id (.ok c) none meta).pushed = some (setServers c servers') ∧
       (∀ e ∈ servers', ∀ r ∈ e.2.routes, r.id ≠ id) ∧
       ((∀ e ∈ servers, e.2.routes ≠ []) → ∀ e ∈ servers', e.2.routes ≠ [])) := by
  constructor
  · intro hall
    have hd : deleteFromServers id servers = none :=
      (deleteFromServers_eq_none_iff id servers).mpr hall
    simp [deleteProxy, hs, hd]
  · intro huniq hex
    obtain ⟨servers', hd⟩ := deleteFromServers_found hex
    refine ⟨servers', ?_, deleteFromServers_removed id huniq hd,
      fun hne => deleteFromServers_no_empty id hne hd⟩
    simp [deleteProxy, hs, hd]

/-- Witness for the amended C4: deleting the absent `zz` errors, and
deleting `y` (unique to bucket `a`) removes it everywhere with no empty
bucket left. -/
theorem C4_witness :
    (deleteProxy "zz" (.ok c4cfg) none emptyMeta).res =
      .error ("route with ID " ++ "zz" ++ " not found") ∧
    (∃ servers', (deleteProxy "y" (.ok c4cfg) none emptyMeta).pushed =
        some (setServers c4cfg servers') ∧
      (∀ e ∈ servers', ∀ r ∈ e.2.routes, r.id ≠ "y") ∧
      ((∀ e ∈ [("a", ({ listen := [":80"], routes := [c4routeX, c4routeY] } : CaddyServer)),
               ("b", ({ listen := [":80"], routes := [c4routeX] } : CaddyServer))],
          e.2.routes ≠ []) → ∀ e ∈ servers', e.2.routes ≠ [])) :=
  ⟨(C4_delete_removes_route "zz" c4cfg _ emptyMeta rfl).1 (by decide),
   (C4_delete_removes_route "y" c4cfg _ emptyMeta rfl).2 (by decide)
     ⟨("a", { listen := [":80"], routes := [c4routeX, c4routeY] }),
       List.mem_cons_self _ _,
       c4routeY, List.mem_cons_of_mem _ (List.mem_cons_self _ _), rfl⟩⟩

/-! ### C6: the HTTP-only bucket across AddProxy sequences -/

theorem lookup_addRouteToServers_ne (env : String → String) (p : Proxy)
    (route : CaddyRoute) (servers : List (String × CaddyServer)) (nm : String)
    (hne : nm ≠ serverNameOf p) :
    List.lookup nm (addRouteToServers env p route servers) = List.lookup nm servers := by
  simp only [addRouteToServers]
  cases hl : List.lookup (serverNameOf p) servers with
  | some server => exact lookup_assocSet_ne _ _ _ _ hne
  | none => exact lookup_assocSet_ne _ _ _ _ hne

theorem colon_append_inj {s : String} (h : ":" ++ s = ":443") : s = "443" := by
  have hd : ':' :: s.data = ':' :: "443".data := congrArg String.data h
  have hdd : s.data = "443".data := by injection hd
  show s = "443"
  calc s = ⟨s.data⟩ := rfl
    _ = ⟨"443".data⟩ := by rw [hdd]
    _ = "443" := rfl

theorem not443_listenPortsOf {p : Proxy} (hnone : p.sslMode = "none")
    (hp : ∀ hp', splitHostPort p.domain = some hp' → hp'.2 ≠ "443") :
    ":443" ∉ listenPortsOf p := by
  unfold listenPortsOf
  rw [if_pos hnone]
  cases hsp : splitHostPort p.domain with
  | none => decide
  | some hp' =>
    intro hmem
    rcases List.mem_cons.mp hmem with h80 | hrest
    · exact absurd h80 (by decide)
    · have hport := List.mem_singleton.mp hrest
      exact hp hp' hsp (colon_append_inj hport.symm)

theorem servers0_getD (cfg : CaddyConfig) :
    ((if cfg.apps.http.servers.isNone then freshConfig else cfg).apps.http.servers.getD []) =
      cfg.apps.http.servers.getD [] := by
  cases hcs : cfg.apps.http.servers with
  | none => simp [hcs, freshConfig]
  | some s => simp [hcs]

theorem addProxy_preserves_http_only_inv (env bhash : String → String) (p : Proxy)
    (cfg : CaddyConfig) (meta : MetadataStore)
    (hp : p.sslMode = "none" → ∀ hp', splitHostPort p.domain = some hp' → hp'.2 ≠ "443")
    (hinv : ∀ sv, List.lookup "http_only" (cfg.apps.http.servers.getD []) = some sv →
      sv.automaticHTTPS = some { disable := true } ∧ ":443" ∉ sv.listen) :
    ∀ sv, List.lookup "http_only"
        (((addProxy env bhash p (.ok cfg) none meta).pushed.getD cfg).apps.http.servers.getD [])
        = some sv →
      sv.automaticHTTPS = some { disable := true } ∧ ":443" ∉ sv.listen := by
  cases hA : validateIPList p.allowedIPs with
  | error e =>
    intro sv hsv
    have hnone : (addProxy env bhash p (.ok cfg) none meta).pushed = none := by
      unfold addProxy
      rw [hA]
    rw [hnone] at hsv
    exact hinv sv hsv
  | ok u =>
    cases u
    cases hB : validateIPList p.blockedIPs with
    | error e =>
      intro sv hsv
      have hnone : (addProxy env bhash p (.ok cfg) none meta).pushed = none := by
        unfold addProxy
        rw [hA, hB]
      rw [hnone] at hsv
      exact hinv sv hsv
    | ok u' =>
      cases u'
      cases hroute : buildProxyRoute bhash p with
      | error e =>
        intro sv hsv
        have hnone : (addProxy env bhash p (.ok cfg) none meta).pushed = none := by
          unfold addProxy
          rw [hA, hB, hroute]
        rw [hnone] at hsv
        exact hinv sv hsv
      | ok route =>
        obtain ⟨cfg', hout, hs⟩ := addProxy_ok_shape env bhash p cfg meta route hA hB hroute
        intro sv hsv
        rw [hout] at hsv
        simp only [Option.getD_some] at hsv
        rw [hs] at hsv
        simp only [Option.getD_some] at hsv
        by_cases hmode : p.sslMode = "none"
        · have hname : serverNameOf p = "http_only" := by
            unfold serverNameOf
            rw [if_pos hmode]
          obtain ⟨sv0, hlook, _, _, _, hold, _⟩ :=
            addRouteToServers_self env p route
              ((if cfg.apps.http.servers.isNone then freshConfig else cfg).apps.http.servers.getD [])
          rw [hname] at hlook
          rw [hlook] at hsv
          obtain rfl : sv0 = sv := by injection hsv
          cases hl0 : List.lookup (serverNameOf p)
              ((if cfg.apps.http.servers.isNone then freshConfig else cfg).apps.http.servers.getD []) with
          | some old =>
            rw [hl0] at hold
            have hinv_old : old.automaticHTTPS = some { disable := true } ∧
                ":443" ∉ old.listen := by
              apply hinv
              rw [← servers0_getD cfg, ← hname]
              exact hl0
            refine ⟨?_, ?_⟩
            · rw [hold.1, hinv_old.1]
            · rw [hold.2]
              exact not_mem_mergeListen hinv_old.2 (not443_listenPortsOf hmode (hp hmode))
          | none =>
            rw [hl0] at hold
            refine ⟨?_, ?_⟩
            · rw [hold.1, if_pos hmode]
            · rw [hold.2]
              exact not443_listenPortsOf hmode (hp hmode)
        · have hname : "http_only" ≠ serverNameOf p := by
            unfold serverNameOf
            rw [if_neg hmode]
            decide
          rw [lookup_addRouteToServers_ne env p route _ _ hname] at hsv
          rw [servers0_getD cfg] at hsv
          exact hinv sv hsv

theorem runAddProxies_http_only_inv (env bhash : String → String) (ps : List Proxy) :
    ∀ st : CaddyConfig × MetadataStore,
    (∀ p ∈ ps, p.sslMode = "none" →
      ∀ hp', splitHostPort p.domain = some hp' → hp'.2 ≠ "443") →
    (∀ sv, List.lookup "http_only" (st.1.apps.http.servers.getD []) = some sv →
      sv.automaticHTTPS = some { disable := true } ∧ ":443" ∉ sv.listen) →
    ∀ sv, List.lookup "http_only"
        ((runAddProxies env bhash st ps).1.apps.http.servers.getD []) = some sv →
      sv.automaticHTTPS = some { disable := true } ∧ ":443" ∉ sv.listen := by
  induction ps with
  | nil => exact fun st _ hinv => hinv
  | cons p rest ih =>
    intro st hps hinv
    simp only [runAddProxies]
    exact ih _ (fun q hq => hps q (List.mem_cons_of_mem _ hq))
      (addProxy_preserves_http_only_inv env bhash p st.1 st.2
        (hps p (List.mem_cons_self _ _)) hinv)

/-- A proxy with TLS mode `none` whose domain embeds port 443. -/
def c6proxy : Proxy :=
  { c1proxy with sslMode := "none", domain := "svc:443", targetURL := "http://10.0.0.1:80" }

/-- C6, counterexample: an HTTP-only proxy whose domain embeds port 443
puts `":443"` into the `http_only` bucket's listen set, so the claimed
listen-set property fails for domain-embedded port 443. -/
theorem C6_counterexample :
    ((addProxy cenv chash c6proxy (.ok freshConfig) none emptyMeta).pushed.map
      (fun c => (List.lookup "http_only" (c.apps.http.servers.getD [])).map
        (fun sv => sv.listen.contains ":443"))) = some (some true) := by
  decide

/-- C6 (amended): over every sequence of `AddProxy` calls starting from
the empty tree, the `http_only` bucket always carries
`automatic_https.disable = true`, and its listen set omits `":443"`
provided no TLS-mode-`none` proxy in the sequence has a domain embedding
port 443 (such a domain adds `":443"` to the HTTP-only bucket). -/
theorem C6_http_only_bucket (env bhash : String → String) (ps : List Proxy)
    (meta : MetadataStore)
    (hports : ∀ p ∈ ps, p.sslMode = "none" →
      ∀ hp', splitHostPort p.domain = some hp' → hp'.2 ≠ "443") :
    ∀ sv, List.lookup "http_only"
        ((runAddProxies env bhash (freshConfig, meta) ps).1.apps.http.servers.getD [])
        = some sv →
      sv.automaticHTTPS = some { disable := true } ∧ ":443" ∉ sv.listen :=
  runAddProxies_http_only_inv env bhash ps (freshConfig, meta) hports
    (fun sv hsv => by cases hsv)

/-- An HTTP-only proxy with a port-qualified domain away from 443. -/
def c6wproxy : Proxy :=
  { c1proxy with sslMode := "none", domain := "svc:8080", targetURL := "http://10.0.0.1:80" }

/-- Witness for the amended C6 on the sequence `[c6wproxy]`. -/
theorem C6_witness :
    ((List.lookup "http_only"
        ((runAddProxies cenv chash (freshConfig, emptyMeta) [c6wproxy]).1.apps.http.servers.getD [])).map
      (fun sv => (sv.automaticHTTPS, sv.listen.contains ":443"))) =
    some (some { disable := true }, false) := by
  have h := C6_http_only_bucket cenv chash [c6wproxy] emptyMeta (by
    intro p hp hnone hp' hsp
    rcases List.mem_singleton.mp hp with rfl
    rw [show splitHostPort c6wproxy.domain = some ("svc", "8080") from by decide] at hsp
    obtain rfl : ("svc", "8080") = hp' := by injection hsp
    decide)
  cases hl : List.lookup "http_only"
      ((runAddProxies cenv chash (freshConfig, emptyMeta) [c6wproxy]).1.apps.http.servers.getD []) with
  | none =>
    have hsome : (List.lookup "http_only"
        ((runAddProxies cenv chash (freshConfig, emptyMeta) [c6wproxy]).1.apps.http.servers.getD [])).isSome = true := by
      decide
    rw [hl] at hsome
    cases hsome
  | some sv =>
    obtain ⟨h1, h2⟩ := h sv hl
    simp only [Option.map_some']
    rw [h1]
    have h2' : sv.listen.contains ":443" = false := by
      cases hc : sv.listen.contains ":443" with
      | false => rfl
      | true => exact absurd (by simpa using hc) h2
    rw [h2']

/-! ### C7: redirect round-trip with path preservation -/

theorem strHasSuffix_append (a b : String) : strHasSuffix b (a ++ b) = true := by
  unfold strHasSuffix
  rw [List.isSuffixOf_iff_suffix]
  show b.data <:+ a.data ++ b.data
  exact List.suffix_append _ _

theorem strTrimSuffix_append_cancel (a b : String) : strTrimSuffix (a ++ b) b = a :=
  strTrimSuffix_append a b

theorem append_ne_empty_right (a b : String) (h : b ≠ "") : a ++ b ≠ "" := by
  intro hh
  have hd : a.data ++ b.data = [] := congrArg String.data hh
  have hb : b.data = [] := (List.append_eq_nil.mp hd).2
  apply h
  calc b = ⟨b.data⟩ := rfl
    _ = ⟨[]⟩ := by rw [hb]
    _ = "" := rfl

/-- C7: a redirect with `preserve_path = true` and destination `d`
builds a route whose `Location` response header is exactly
`d ++ "{http.request.uri}"`, and `ParseRedirectsFromConfig` on a tree
containing that route recovers `destination_url = d` with
`preserve_path = true` (the placeholder suffix stripped exactly). -/
theorem C7_redirect_roundtrip (r : Redirect) (nm : String) (listen : List String)
    (hpp : r.preservePath = true)
    (hpre : strHasPrefix "redirect_" r.id = true)
    (hcode : r.redirectCode = 301 ∨ r.redirectCode = 302) :
    (∃ hH rest, (buildRedirectRoute r).handle = hH :: rest ∧
      hH.response = some { set := [("Location",
        [r.destinationURL ++ "\x7bhttp.request.uri\x7d"])] }) ∧
    ∃ red, parseRedirectsFromConfig
        ⟨⟨⟨some [(nm, { listen := listen, routes := [buildRedirectRoute r] })]⟩, none⟩⟩ =
        [red] ∧
      red.destinationURL = r.destinationURL ∧ red.preservePath = true := by
  have hID : r.id ≠ "" := by
    intro h
    rw [h] at hpre
    exact absurd hpre (by decide)
  constructor
  · refine ⟨{ handler := "headers",
              response := some { set := [("Location",
                [r.destinationURL ++ "\x7bhttp.request.uri\x7d"])] } },
            [{ handler := "static_response", statusCode := r.redirectCode }], ?_, rfl⟩
    simp [buildRedirectRoute, hpp]
  · have hparse : ∃ red, parseRedirectRoute (buildRedirectRoute r) = some red ∧
        red.destinationURL = r.destinationURL ∧ red.preservePath = true := by
      have hhandle : (buildRedirectRoute r).handle =
          [{ handler := "headers",
             response := some { set := [("Location",
               [r.destinationURL ++ "\x7bhttp.request.uri\x7d"])] } },
           { handler := "static_response", statusCode := r.redirectCode }] := by
        simp [buildRedirectRoute, hpp]
      have hrid : (buildRedirectRoute r).id = r.id := rfl
      have hne : r.destinationURL ++ "\x7bhttp.request.uri\x7d" ≠ "" :=
        append_ne_empty_right _ _ (by decide)
      have hcond : ¬ ((buildRedirectRoute r).id = "" ∨
          ¬ strHasPrefix "redirect_" (buildRedirectRoute r).id = true) := by
        rw [hrid]
        push_neg
        exact ⟨hID, hpre⟩
      have hstatic : (301 ≤ r.redirectCode ∧ r.redirectCode ≤ 302) := by
        rcases hcode with h | h <;> rw [h] <;> exact ⟨by decide, by decide⟩
      refine ⟨{ id := (buildRedirectRoute r).id,
                sourceDomains := (buildRedirectRoute r).matchers.flatMap (fun m => m.host),
                destinationURL := strTrimSuffix
                  (r.destinationURL ++ "\x7bhttp.request.uri\x7d")
                  "\x7bhttp.request.uri\x7d",
                redirectCode := r.redirectCode,
                preservePath := true, status := "active",
                createdAt := "2024-01-01T00:00:00Z",
                updatedAt := "2024-01-01T00:00:00Z" }, ?_, ?_, rfl⟩
      · simp only [parseRedirectRoute]
        rw [if_neg hcond, hhandle]
        have hfR : findLastP
            (fun h => h.handler = "static_response" && 301 ≤ h.statusCode &&
              h.statusCode ≤ 302)
            [({ handler := "headers",
                response := some { set := [("Location",
                  [r.destinationURL ++ "\x7bhttp.request.uri\x7d"])] } } : CaddyHandler),
             { handler := "static_response", statusCode := r.redirectCode }] =
            some { handler := "static_response", statusCode := r.redirectCode } := by
          unfold findLastP
          rw [List.filter_cons_of_neg (by simp)]
          rw [List.filter_cons_of_pos (by simp [hstatic.1, hstatic.2])]
          rfl
        have hfH : findLastP (fun h => h.handler = "headers")
            [({ handler := "headers",
                response := some { set := [("Location",
                  [r.destinationURL ++ "\x7bhttp.request.uri\x7d"])] } } : CaddyHandler),
             { handler := "static_response", statusCode := r.redirectCode }] =
            some { handler := "headers",
                   response := some { set := [("Location",
                     [r.destinationURL ++ "\x7bhttp.request.uri\x7d"])] } } := by
          unfold findLastP
          rw [List.filter_cons_of_pos (by simp), List.filter_cons_of_neg (by simp)]
          rfl
        rw [hfR, hfH]
        simp only [lookup_cons_self]
        rw [if_neg hne, if_pos (strHasSuffix_append r.destinationURL _)]
      · exact strTrimSuffix_append_cancel _ _
    obtain ⟨red, hred, hdest, hpres⟩ := hparse
    refine ⟨red, ?_, hdest, hpres⟩
    unfold parseRedirectsFromConfig
    simp [hred]

/-- A concrete path-preserving redirect matching the spec's example. -/
def c7redirect : Redirect where
  id := "redirect_old_com_1"
  sourceDomains := ["old.com"]
  destinationURL := "https://new.com"
  redirectCode := 301
  preservePath := true
  status := "active"
  createdAt := "t"
  updatedAt := "t"

/-- Witness for C7 at the spec's example redirect. -/
theorem C7_witness :
    (∃ hH rest, (buildRedirectRoute c7redirect).handle = hH :: rest ∧
      hH.response = some { set := [("Location",
        [c7redirect.destinationURL ++ "\x7bhttp.request.uri\x7d"])] }) ∧
    ∃ red, parseRedirectsFromConfig
        ⟨⟨⟨some [("https_enabled",
            { listen := [":80", ":443"], routes := [buildRedirectRoute c7redirect] })]⟩,
          none⟩⟩ = [red] ∧
      red.destinationURL = c7redirect.destinationURL ∧ red.preservePath = true :=
  C7_redirect_roundtrip c7redirect "https_enabled" [":80", ":443"]
    rfl (by decide) (Or.inl rfl)

/-! ### C8: the authentication handler -/

theorem buildReverseProxyHandler_handler {p : Proxy} {hd : CaddyHandler}
    (h : buildReverseProxyHandler p = .ok hd) : hd.handler = "reverse_proxy" := by
  unfold buildReverseProxyHandler at h
  cases hpt : parseTargetURL p.targetURL with
  | error e =>
    rw [hpt] at h
    cases h
  | ok t =>
    obtain ⟨dial, https, host⟩ := t
    rw [hpt] at h
    injection h with h'
    rw [← h']

/-- C8: the route built for a proxy contains an `authentication` handler
iff basic auth is enabled with non-empty username and password; when
present it is the first handler, strictly before the reverse-proxy
handler; and the embedded account password is the bcrypt image of the
password (so it differs from the plaintext whenever the hash does). -/
theorem C8_basic_auth_handler (bhash : String → String) (p : Proxy) (route : CaddyRoute)
    (hroute : buildProxyRoute bhash p = .ok route) :
    ((∃ h ∈ route.handle, h.handler = "authentication") ↔ basicAuthActive p = true) ∧
    (∀ ba, p.basicAuth = some ba → basicAuthActive p = true →
      ∃ rp, route.handle = [basicAuthHandler bhash ba, rp] ∧
        rp.handler = "reverse_proxy" ∧
        (basicAuthHandler bhash ba).handler = "authentication" ∧
        List.lookup "http_basic" (basicAuthHandler bhash ba).providers =
          some { accounts := [{ username := ba.username,
                                password := bhash ba.password }] } ∧
        (bhash ba.password ≠ ba.password →
          ∀ acct ∈ ((basicAuthHandler bhash ba).providers.flatMap
              (fun pr => pr.2.accounts)), acct.password ≠ ba.password)) ∧
    (basicAuthActive p = false →
      ∃ rp, route.handle = [rp] ∧ rp.handler = "reverse_proxy") := by
  cases hrp : buildReverseProxyHandler p with
  | error e =>
    exfalso
    unfold buildProxyRoute at hroute
    rw [hrp] at hroute
    cases hroute
  | ok hd =>
    have hhdl : hd.handler = "reverse_proxy" := buildReverseProxyHandler_handler hrp
    by_cases hact : basicAuthActive p = true
    case neg =>
      have hactf : basicAuthActive p = false := by
        cases hb : basicAuthActive p with
        | false => rfl
        | true => exact absurd hb hact
      have hbuild := @buildProxyRoute_ok_of_inactive bhash p hd hrp hactf
      rw [hroute] at hbuild
      have hhandle : route.handle = [hd] := by
        injection hbuild with h'
        rw [h']
      refine ⟨?_, ?_, fun _ => ⟨hd, hhandle, hhdl⟩⟩
      · constructor
        · rintro ⟨h, hmem, hh⟩
          rw [hhandle] at hmem
          obtain rfl : h = hd := List.mem_singleton.mp hmem
          rw [hhdl] at hh
          exact absurd hh (by decide)
        · intro h
          exact absurd h hact
      · intro ba hba htrue
        exact absurd htrue hact
    case pos =>
      obtain ⟨ba, hba⟩ := basicAuthActive_some hact
      have hbuild := @buildProxyRoute_ok_of_active bhash p hd ba hrp hba hact
      rw [hroute] at hbuild
      have hhandle : route.handle = [basicAuthHandler bhash ba, hd] := by
        injection hbuild with h'
        rw [h']
      refine ⟨?_, ?_, ?_⟩
      · constructor
        · intro _
          exact hact
        · intro _
          exact ⟨basicAuthHandler bhash ba, by rw [hhandle]; exact List.mem_cons_self _ _,
            rfl⟩
      · intro ba' hba' _
        obtain rfl : ba = ba' := by
          rw [hba] at hba'
          injection hba'
        refine ⟨hd, hhandle, hhdl, rfl, lookup_cons_self _ _ _, ?_⟩
        intro hne acct hacct
        have hmem1 : acct ∈ [({ username := ba.username, password := bhash ba.password } : CaddyAccount)] := hacct
        obtain rfl : acct = { username := ba.username, password := bhash ba.password } :=
          List.mem_singleton.mp hmem1
        exact hne
      · intro hfalse
        rw [hact] at hfalse
        cases hfalse

/-- Witness for C8 at the concrete proxy `c1wproxy`, whose basic auth is
enabled with username `u` and password `pw`. -/
theorem C8_witness :
    ∃ route, buildProxyRoute chash c1wproxy = .ok route ∧
      (((∃ h ∈ route.handle, h.handler = "authentication") ↔
        basicAuthActive c1wproxy = true) ∧
       (basicAuthActive c1wproxy = true)) := by
  cases hroute : buildProxyRoute chash c1wproxy with
  | error e =>
    have hok : (buildProxyRoute chash c1wproxy).isOk = true := by decide
    rw [hroute] at hok
    cases hok
  | ok route =>
    exact ⟨route, rfl, (C8_basic_auth_handler chash c1wproxy route hroute).1, by decide⟩

/-! ### C9: the DNS-challenge TLS policy -/

/-- C9: for a proxy with TLS mode `auto`, challenge `dns`, provider
`cloudflare` and an explicit `api_token` credential `tok123`, `AddProxy`
ends the chosen bucket's TLS-policy list with a policy whose SNI match
is `[domain]` and whose ACME issuer uses DNS provider
`dns.providers.cloudflare` with token `tok123`; and in general
`getCredential` resolves to the proxy-supplied value when non-empty,
else to the provider-specific environment variable. -/
theorem C9_dns_challenge_policy (env bhash : String → String) (p : Proxy)
    (cfg : CaddyConfig) (meta : MetadataStore) (route : CaddyRoute)
    (hA : validateIPList p.allowedIPs = .ok ())
    (hB : validateIPList p.blockedIPs = .ok ())
    (hroute : buildProxyRoute bhash p = .ok route)
    (hauto : p.sslMode = "auto") (hch : p.challengeType = "dns")
    (hprov : p.dnsProvider = "cloudflare")
    (htok : List.lookup "api_token" p.dnsCredentials = some "tok123") :
    (∃ cfg' servers' sv pol iss ch,
      (addProxy env bhash p (.ok cfg) none meta).pushed = some cfg' ∧
      cfg'.apps.http.servers = some servers' ∧
      List.lookup "https_enabled" servers' = some sv ∧
      sv.tlsPolicies.getLast? = some pol ∧
      pol.tlsMatch = some { sni := [p.domain] } ∧
      pol.issuers = [iss] ∧ iss.module = "acme" ∧
      iss.challenges.dns = some ch ∧
      ch.provider.name = "dns.providers.cloudflare" ∧
      ch.provider.apiToken = "tok123") ∧
    (∀ (env' : String → String) (p' : Proxy) (key envVar v : String),
      (List.lookup key p'.dnsCredentials = some v → v ≠ "" →
        getCredential env' p' key envVar = v) ∧
      (List.lookup key p'.dnsCredentials = none →
        getCredential env' p' key envVar = env' envVar) ∧
      (List.lookup key p'.dnsCredentials = some "" →
        getCredential env' p' key envVar = env' envVar)) := by
  constructor
  · have htokval : getCredential env p "api_token" "CLOUDFLARE_API_TOKEN" = "tok123" := by
      simp [getCredential, htok]
    have hdp : configureDNSProviderCredentials env
        { name := "dns.providers." ++ p.dnsProvider } p =
        { name := "dns.providers." ++ p.dnsProvider,
          apiToken := "tok123",
          email := getCredential env p "email" "CLOUDFLARE_EMAIL" } := by
      unfold configureDNSProviderCredentials
      rw [if_pos hprov, htokval]
    have hpol : createDNSChallengeTLSPolicy env p = some
        { tlsMatch := some { sni := [p.domain] },
          issuers := [{ module := "acme",
                        challenges := { dns := some { provider :=
                          { name := "dns.providers." ++ p.dnsProvider,
                            apiToken := "tok123",
                            email := getCredential env p "email" "CLOUDFLARE_EMAIL" } } } }] } := by
      unfold createDNSChallengeTLSPolicy
      rw [if_neg (by rw [hch, hprov]; simp), hdp]
    obtain ⟨cfg', hout, hs⟩ := addProxy_ok_shape env bhash p cfg meta route hA hB hroute
    obtain ⟨sv, hlook, _, _, _, _, htls⟩ :=
      addRouteToServers_self env p route
        ((if cfg.apps.http.servers.isNone then freshConfig else cfg).apps.http.servers.getD [])
    have hname : serverNameOf p = "https_enabled" := by
      unfold serverNameOf
      rw [if_neg (by rw [hauto]; decide)]
    rw [hname] at hlook
    refine ⟨cfg', _, sv, _, _, _, by rw [hout], hs, hlook,
      htls ⟨hauto, hch⟩ _ hpol, rfl, rfl, rfl, rfl, ?_, rfl⟩
    show "dns.providers." ++ p.dnsProvider = "dns.providers.cloudflare"
    rw [hprov]
    rfl
  · intro env' p' key envVar v
    refine ⟨?_, ?_, ?_⟩
    · intro h hne
      simp [getCredential, h, hne]
    · intro h
      simp [getCredential, h]
    · intro h
      simp [getCredential, h]

/-- A concrete DNS-01 Cloudflare proxy with an explicit API token. -/
def c9proxy : Proxy :=
  { c1proxy with
    sslMode := "auto"
    challengeType := "dns"
    dnsProvider := "cloudflare"
    dnsCredentials := [("api_token", "tok123")] }

/-- Witness for C9 at `c9proxy`. -/
theorem C9_witness :
    ∃ route, buildProxyRoute chash c9proxy = .ok route ∧
      ∃ cfg' servers' sv pol iss ch,
        (addProxy cenv chash c9proxy (.ok freshConfig) none emptyMeta).pushed = some cfg' ∧
        cfg'.apps.http.servers = some servers' ∧
        List.lookup "https_enabled" servers' = some sv ∧
        sv.tlsPolicies.getLast? = some pol ∧
        pol.tlsMatch = some { sni := [c9proxy.domain] } ∧
        pol.issuers = [iss] ∧ iss.module = "acme" ∧
        iss.challenges.dns = some ch ∧
        ch.provider.name = "dns.providers.cloudflare" ∧
        ch.provider.apiToken = "tok123" := by
  cases hroute : buildProxyRoute chash c9proxy with
  | error e =>
    have hok : (buildProxyRoute chash c9proxy).isOk = true := by decide
    rw [hroute] at hok
    cases hok
  | ok route =>
    exact ⟨route, rfl,
      (C9_dns_challenge_policy cenv chash c9proxy freshConfig emptyMeta route
        (by decide) (by decide) hroute rfl rfl rfl (by decide)).1⟩

end CPM
